import Mathlib

/-!
# attilabuti/https-proxy: a shallow embedding of `cmd/config.go` and `cmd/server.go`

Go strings and byte slices are lists of bytes; Go `int` is `Int`; the library
calls the program makes (`crypto/sha256`, `encoding/base64`, `crypto/subtle`,
`time.ParseDuration`, `net/http`) are embedded next to the program's own
functions, each under the name it has in Go.
-/

namespace HttpsProxy

/-! ## Bytes -/

/-- A Go `byte`. -/
abbrev Byte := Fin 256

/-- A Go `string` or `[]byte`: a finite sequence of bytes. -/
abbrev Bytes := List Byte

/-- The bytes of an ASCII string literal of the source. -/
def ascii (s : String) : Bytes := s.toList.map fun c => Fin.ofNat c.toNat

/-- The byte `':'`. -/
def colon : Byte := 58

/-- The byte `'='`, the padding character of `base64.StdEncoding`. -/
def padChar : Byte := 61

/-- The byte `'\n'`. -/
def lf : Byte := 10

/-- The byte `'\r'`. -/
def cr : Byte := 13

/-- Go `strings.IndexByte`: the index of the first `c` in `s`, or `-1`. -/
def IndexByte : Bytes → Byte → Int
  | [], _ => -1
  | b :: s, c => if b = c then 0 else
      let i := IndexByte s c
      if i < 0 then -1 else i + 1

/-- Go `strings.HasPrefix`. -/
def HasPrefix (s pre : Bytes) : Bool :=
  decide (s.length ≥ pre.length) && decide (s.take pre.length = pre)

/-! ## crypto/sha256 -/

namespace sha256

/-- The 64 round constants of SHA-256 (FIPS 180-4, section 4.2.2), in decimal: the
first 32 bits of the fractional parts of the cube roots of the first 64 primes. -/
def K : List Nat :=
  [1116352408, 1899447441, 3049323471, 3921009573, 961987163, 1508970993,
   2453635748, 2870763221, 3624381080, 310598401, 607225278, 1426881987,
   1925078388, 2162078206, 2614888103, 3248222580, 3835390401, 4022224774,
   264347078, 604807628, 770255983, 1249150122, 1555081692, 1996064986,
   2554220882, 2821834349, 2952996808, 3210313671, 3336571891, 3584528711,
   113926993, 338241895, 666307205, 773529912, 1294757372, 1396182291,
   1695183700, 1986661051, 2177026350, 2456956037, 2730485921, 2820302411,
   3259730800, 3345764771, 3516065817, 3600352804, 4094571909, 275423344,
   430227734, 506948616, 659060556, 883997877, 958139571, 1322822218,
   1537002063, 1747873779, 1955562222, 2024104815, 2227730452, 2361852424,
   2428436474, 2756734187, 3204031479, 3329325298]

/-- Rotate a 32-bit word right by `n` bits. -/
def rotr (x n : Nat) : Nat := ((x >>> n) ||| (x <<< (32 - n))) % 2 ^ 32

/-- The function Σ0 of SHA-256. -/
def bigSigma0 (x : Nat) : Nat := rotr x 2 ^^^ rotr x 13 ^^^ rotr x 22

/-- The function Σ1 of SHA-256. -/
def bigSigma1 (x : Nat) : Nat := rotr x 6 ^^^ rotr x 11 ^^^ rotr x 25

/-- The function σ0 of SHA-256. -/
def smallSigma0 (x : Nat) : Nat := rotr x 7 ^^^ rotr x 18 ^^^ (x >>> 3)

/-- The function σ1 of SHA-256. -/
def smallSigma1 (x : Nat) : Nat := rotr x 17 ^^^ rotr x 19 ^^^ (x >>> 10)

/-- The message schedule: `w` holds the words computed so far, newest first;
`n` more words are appended. -/
def schedule : Nat → List Nat → List Nat
  | 0, w => w
  | n + 1, w =>
    let v := (smallSigma1 (w.getD 1 0) + w.getD 6 0 + smallSigma0 (w.getD 14 0) + w.getD 15 0) % 2 ^ 32
    schedule n (v :: w)

/-- The eight working words of the compression function. -/
structure Digest where
  a : Nat
  b : Nat
  c : Nat
  d : Nat
  e : Nat
  f : Nat
  g : Nat
  h : Nat
deriving DecidableEq, Repr

/-- One round of the compression function with round constant `kw.1` and
schedule word `kw.2`. -/
def round (s : Digest) (kw : Nat × Nat) : Digest :=
  let t1 := (s.h + bigSigma1 s.e + ((s.e &&& s.f) ^^^ ((s.e ^^^ 0xffffffff) &&& s.g)) + kw.1 + kw.2) % 2 ^ 32
  let t2 := (bigSigma0 s.a + ((s.a &&& s.b) ^^^ (s.a &&& s.c) ^^^ (s.b &&& s.c))) % 2 ^ 32
  { a := (t1 + t2) % 2 ^ 32, b := s.a, c := s.b, d := s.c,
    e := (s.d + t1) % 2 ^ 32, f := s.e, g := s.f, h := s.g }

/-- Big-endian 32-bit words of a byte sequence. -/
def wordsOf : Bytes → List Nat
  | a :: b :: c :: d :: rest =>
    (a.val <<< 24 ||| b.val <<< 16 ||| c.val <<< 8 ||| d.val) :: wordsOf rest
  | _ => []

/-- Compress one 64-byte block `p` into the state `s`. -/
def block (s : Digest) (p : Bytes) : Digest :=
  let w := (schedule 48 (wordsOf p).reverse).reverse
  let t := (K.zip w).foldl round s
  { a := (s.a + t.a) % 2 ^ 32, b := (s.b + t.b) % 2 ^ 32, c := (s.c + t.c) % 2 ^ 32,
    d := (s.d + t.d) % 2 ^ 32, e := (s.e + t.e) % 2 ^ 32, f := (s.f + t.f) % 2 ^ 32,
    g := (s.g + t.g) % 2 ^ 32, h := (s.h + t.h) % 2 ^ 32 }

/-- The initial hash value. -/
def init : Digest :=
  { a := 1779033703, b := 3144134277, c := 1013904242, d := 2773480762,
    e := 1359893119, f := 2600822924, g := 528734635, h := 1541459225 }

/-- The `k` low bytes of `n`, most significant first. -/
def bigEndian (n : Nat) : Nat → Bytes
  | 0 => []
  | k + 1 => Fin.ofNat (n >>> (8 * k)) :: bigEndian n k

/-- The padded message: a `0x80` byte, zeros up to 56 mod 64, the bit length
on eight bytes. -/
def pad (m : Bytes) : Bytes :=
  m ++ [0x80] ++ List.replicate ((119 - m.length % 64) % 64) 0 ++ bigEndian (8 * m.length) 8

/-- Compress `n` successive 64-byte blocks of `p`. -/
def blocks : Nat → Digest → Bytes → Digest
  | 0, s, _ => s
  | n + 1, s, p => blocks n (block s (p.take 64)) (p.drop 64)

/-- Go `sha256.Sum256`: the 32-byte SHA-256 digest of `m`. -/
def Sum256 (m : Bytes) : Bytes :=
  let p := pad m
  let s := blocks (p.length / 64) init p
  bigEndian s.a 4 ++ bigEndian s.b 4 ++ bigEndian s.c 4 ++ bigEndian s.d 4 ++
    bigEndian s.e 4 ++ bigEndian s.f 4 ++ bigEndian s.g 4 ++ bigEndian s.h 4

end sha256

/-! ## crypto/subtle -/

namespace subtle

/-- Go `subtle.ConstantTimeByteEq`: `int((uint32(x^y) - 1) >> 31)`, where the
subtraction wraps around at `2^32`. -/
def ConstantTimeByteEq (x y : Nat) : Nat := (((x ^^^ y) + 2 ^ 32 - 1) % 2 ^ 32) >>> 31

/-- The loop of `ConstantTimeCompare`: `v |= x[i] ^ y[i]` over both slices. -/
def orXor : Bytes → Bytes → Nat → Nat
  | a :: x, b :: y, v => orXor x y (v ||| (a.val ^^^ b.val))
  | _, _, v => v

/-- Go `subtle.ConstantTimeCompare`: `1` when the slices are equal, `0`
otherwise (also when the lengths differ). -/
def ConstantTimeCompare (x y : Bytes) : Nat :=
  if x.length ≠ y.length then 0 else ConstantTimeByteEq (orXor x y 0) 0

end subtle

/-! ## encoding/base64, `StdEncoding` -/

namespace base64

/-- The alphabet of `base64.StdEncoding`. -/
def encodeStd : Bytes :=
  ascii "ABCDEFGHIJKLMNOPQRSTUVWXYZabcdefghijklmnopqrstuvwxyz0123456789+/"

/-- The decode map of the encoding: the index of `c` in the alphabet, `0xff`
for a byte outside it. -/
def decodeMap (c : Byte) : Nat :=
  let i := encodeStd.indexOf c
  if i < 64 then i else 0xff

/-- The character of the alphabet for a 6-bit value. -/
def encodeChar (i : Nat) : Byte := encodeStd.getD (i &&& 0x3F) 0

/-- Go `(*Encoding).Encode` for `StdEncoding`, as `EncodeToString` returns it:
three bytes give four characters, a remainder of one or two bytes is padded
with `'='`. -/
def EncodeToString : Bytes → Bytes
  | a :: b :: c :: rest =>
    let val := a.val <<< 16 ||| b.val <<< 8 ||| c.val
    encodeChar (val >>> 18) :: encodeChar (val >>> 12) :: encodeChar (val >>> 6) ::
      encodeChar val :: EncodeToString rest
  | [a, b] =>
    let val := a.val <<< 16 ||| b.val <<< 8
    [encodeChar (val >>> 18), encodeChar (val >>> 12), encodeChar (val >>> 6), padChar]
  | [a] =>
    let val := a.val <<< 16
    [encodeChar (val >>> 18), encodeChar (val >>> 12), padChar, padChar]
  | [] => []

/-- The loop `for si < len(src) && (src[si] == '\n' || src[si] == '\r') { si++ }`. -/
def skipNewlines : Bytes → Bytes
  | [] => []
  | c :: s => if c = lf ∨ c = cr then skipNewlines s else c :: s

/-- The end of `decodeQuantum`: the `dlen` 6-bit values of `dbuf` (missing
ones are zero) are packed into 24 bits, of which the first `dlen - 1` bytes
are written. -/
def quantumBytes (dbuf : List Nat) (dlen : Nat) : Bytes :=
  let val := dbuf.getD 0 0 <<< 18 ||| dbuf.getD 1 0 <<< 12 ||| dbuf.getD 2 0 <<< 6 ||| dbuf.getD 3 0
  ([Fin.ofNat (val >>> 16), Fin.ofNat (val >>> 8), Fin.ofNat val] : Bytes).take (dlen - 1)

/-- Go `(*Encoding).Decode` for `StdEncoding` (padded, not strict): the loop
over `decodeQuantum`. `dbuf` holds the 6-bit values read so far in the current
quantum (`j = dbuf.length`); `none` is a `CorruptInputError`. -/
def decode : Bytes → List Nat → Option Bytes
  | [], dbuf => if dbuf.length = 0 then some [] else none
  | c :: s, dbuf =>
    let out := decodeMap c
    if out ≠ 0xff then
      if dbuf.length = 3 then
        (decode s []).map fun rest => quantumBytes (dbuf ++ [out]) 4 ++ rest
      else decode s (dbuf ++ [out])
    else if c = lf ∨ c = cr then decode s dbuf
    else if c ≠ padChar then none
    else if dbuf.length < 2 then none
    else if dbuf.length = 2 then
      match skipNewlines s with
      | [] => none
      | c2 :: s2 =>
        if c2 ≠ padChar then none
        else if skipNewlines s2 = [] then some (quantumBytes dbuf 2) else none
    else
      if skipNewlines s = [] then some (quantumBytes dbuf 3) else none

/-- Go `(*Encoding).DecodeString` for `StdEncoding`: the decoded bytes, or
`none` when the decoder reports an error. -/
def DecodeString (s : Bytes) : Option Bytes := decode s []

end base64

/-! ## strconv, fmt, net, time -/

/-- The ASCII digit of `d < 10`. -/
def digit (d : Nat) : Byte := Fin.ofNat (48 + d)

/-- Whether `c` is one of `'0'..'9'`. -/
def isDigit (c : Byte) : Bool := decide (48 ≤ c.val) && decide (c.val ≤ 57)

/-- Decimal digits of `n`, most significant first, in front of `acc`; `fuel`
bounds the number of digits and `fuel = n` is always enough. -/
def natDigits : Nat → Nat → Bytes → Bytes
  | 0, n, acc => digit n :: acc
  | fuel + 1, n, acc =>
    if n < 10 then digit n :: acc else natDigits fuel (n / 10) (digit (n % 10) :: acc)

/-- Go `strconv.Itoa`, also what `fmt` prints for an `int` under `%v`. -/
def Itoa (n : Int) : Bytes :=
  if n < 0 then 45 :: natDigits n.natAbs n.natAbs [] else natDigits n.toNat n.toNat []

/-- Go `net.JoinHostPort`: a host with a colon is bracketed. -/
def JoinHostPort (host port : Bytes) : Bytes :=
  if IndexByte host colon ≥ 0 then ascii "[" ++ host ++ ascii "]:" ++ port
  else host ++ ascii ":" ++ port

namespace time

/-- The table `unitMap` of package `time`: nanoseconds in each unit. The two
spellings of microseconds with a micro sign are UTF-8 encoded. -/
def unitMap (u : Bytes) : Option Nat :=
  if u = ascii "ns" then some 1
  else if u = ascii "us" then some 1000
  else if u = [0xC2, 0xB5, 0x73] then some 1000
  else if u = [0xCE, 0xBC, 0x73] then some 1000
  else if u = ascii "ms" then some 1000000
  else if u = ascii "s" then some 1000000000
  else if u = ascii "m" then some 60000000000
  else if u = ascii "h" then some 3600000000000
  else none

/-- Go `time.leadingInt`: the leading decimal digits of `s` as a number that
starts from `x`, and the rest; `none` when the number exceeds `1 << 63`. -/
def leadingInt : Bytes → Nat → Option (Nat × Bytes)
  | [], x => some (x, [])
  | c :: s, x =>
    if !isDigit c then some (x, c :: s)
    else if x > 2 ^ 63 / 10 then none
    else
      let x1 := x * 10 + (c.val - 48)
      if x1 > 2 ^ 63 then none else leadingInt s x1

/-- Go `time.leadingFraction`: the leading digits of `s` as a numerator `x`
over `scale`; digits past an overflow are consumed and dropped. -/
def leadingFraction : Bytes → Nat → Nat → Bool → Nat × Nat × Bytes
  | [], x, scale, _ => (x, scale, [])
  | c :: s, x, scale, overflow =>
    if !isDigit c then (x, scale, c :: s)
    else if overflow then leadingFraction s x scale true
    else if x > (2 ^ 63 - 1) / 10 then leadingFraction s x scale true
    else
      let y := x * 10 + (c.val - 48)
      if y > 2 ^ 63 then leadingFraction s x scale true
      else leadingFraction s y (scale * 10) false

/-- The text of the error `time: invalid duration "s"`; `quote` is rendered
for a string of printable ASCII without quotes or backslashes, such as the
decimal strings this program parses. -/
def invalidDuration (orig : Bytes) : Bytes :=
  ascii "time: invalid duration " ++ [34] ++ orig ++ [34]

/-- Whether `c` ends a unit name: `'.'` or a digit. -/
def endsUnit (c : Byte) : Bool := decide (c = 46) || isDigit c

/-- The loop `for s != ""` of `time.ParseDuration`: number, optional fraction,
unit, accumulated into the `uint64` total `d`. The fraction is added with
exact division where Go multiplies in `float64`. `fuel` bounds the number of
iterations; each consumes at least one byte. -/
def parseLoop (orig : Bytes) : Nat → Bytes → Nat → Except Bytes Nat
  | 0, _, d => .ok d
  | _ + 1, [], d => .ok d
  | fuel + 1, c :: t, d =>
    if !endsUnit c then .error (invalidDuration orig)
    else
      match leadingInt (c :: t) 0 with
      | none => .error (invalidDuration orig)
      | some (v, s1) =>
        let pre := (c :: t).length != s1.length
        let frac : Nat × Nat × Bool × Bytes :=
          match s1 with
          | c1 :: t1 =>
            if c1 = 46 then
              let r := leadingFraction t1 0 1 false
              (r.1, r.2.1, t1.length != r.2.2.length, r.2.2)
            else (0, 1, false, s1)
          | [] => (0, 1, false, s1)
        let f := frac.1
        let scale := frac.2.1
        let post := frac.2.2.1
        let s2 := frac.2.2.2
        if !pre && !post then .error (invalidDuration orig)
        else
          let u := s2.takeWhile fun b => !endsUnit b
          let s3 := s2.dropWhile fun b => !endsUnit b
          if u = [] then
            .error (ascii "time: missing unit in duration " ++ [34] ++ orig ++ [34])
          else
            match unitMap u with
            | none =>
              .error (ascii "time: unknown unit " ++ [34] ++ u ++ [34] ++
                ascii " in duration " ++ [34] ++ orig ++ [34])
            | some unit =>
              if v > 2 ^ 63 / unit then .error (invalidDuration orig)
              else
                let v1 := v * unit
                let v2 := if f > 0 then (v1 + f * unit / scale) % 2 ^ 64 else v1
                if f > 0 ∧ v2 > 2 ^ 63 then .error (invalidDuration orig)
                else
                  let d1 := (d + v2) % 2 ^ 64
                  if d1 > 2 ^ 63 then .error (invalidDuration orig)
                  else parseLoop orig fuel s3 d1

/-- Go `time.ParseDuration`: the duration in nanoseconds, or the error text. -/
def ParseDuration (orig : Bytes) : Except Bytes Int :=
  let neg := decide (orig.head? = some 45)
  let s := match orig with
    | c :: t => if c = 45 ∨ c = 43 then t else orig
    | [] => orig
  if s = ascii "0" then .ok 0
  else if s = [] then .error (invalidDuration orig)
  else
    match parseLoop orig s.length s 0 with
    | .error e => .error e
    | .ok d =>
      if neg then .ok (-(d : Int))
      else if d > 2 ^ 63 - 1 then .error (invalidDuration orig)
      else .ok (d : Int)

end time

/-! ## cmd/helper.go -/

/-- What `os.Stat` returns for a path: an error that `os.IsNotExist` accepts,
another error (then the `FileInfo` is nil), or the `FileInfo` of a directory or
of another kind of file. -/
inductive StatResult where
  | notExist
  | otherError
  | directory
  | file
deriving DecidableEq, Repr

/-- The file system as `os.Stat` shows it. -/
abbrev FileSystem := Bytes → StatResult

/-- How a call that returns an `error` can end without a value: with the
error (its text), or in a run-time panic. -/
inductive Failure where
  | error (msg : Bytes)
  | crash
deriving DecidableEq, Repr

/-- Go `fileExists` (helper.go): false when the path does not exist, otherwise
whether it is not a directory; `info.IsDir()` on the nil `FileInfo` of any
other `Stat` error is a nil dereference. -/
def fileExists (fs : FileSystem) (fileName : Bytes) : Except Failure Bool :=
  match fs fileName with
  | .notExist => .ok false
  | .otherError => .error .crash
  | .directory => .ok false
  | .file => .ok true

/-! ## cmd/config.go -/

/-- The field `http` of `configuration`. -/
structure httpConfig where
  enabled : Bool
  port : Int
  address : Bytes
deriving DecidableEq, Repr

/-- The field `https` of `configuration`. -/
structure httpsConfig where
  enabled : Bool
  port : Int
  address : Bytes
  cert : Bytes
  key : Bytes
deriving DecidableEq, Repr

/-- The field `auth` of `configuration`; the two hashes are `[32]byte`. -/
structure authConfig where
  enabled : Bool
  username : Bytes
  password : Bytes
  userHash : Bytes
  passHash : Bytes
deriving DecidableEq, Repr

/-- The field `timeout` of `configuration`; a `time.Duration` counts
nanoseconds. -/
structure timeoutConfig where
  read : Int
  write : Int
  dial : Int
  readDuration : Int
  writeDuration : Int
  dialDuration : Int
deriving DecidableEq, Repr

/-- The field `log` of `configuration`. -/
structure logConfig where
  enabled : Bool
  dir : Bytes
  connections : Bool
deriving DecidableEq, Repr

/-- Go `type configuration struct`. -/
structure configuration where
  host : Bytes
  http : httpConfig
  https : httpsConfig
  auth : authConfig
  timeout : timeoutConfig
  log : logConfig
  quiet : Bool
deriving DecidableEq, Repr

/-- Go `errors.New` and `fmt.Errorf`: an error with the given text. -/
def errorf (msg : Bytes) : Except Failure α := .error (.error msg)

namespace configuration

/-- Lines 62-70 of `init`: the HTTP port and address. -/
def initHTTP (c : configuration) : Except Failure configuration :=
  if c.http.enabled then
    if c.http.port = 0 then errorf (ascii "HTTP port must be specified")
    else if c.http.port < 0 ∨ c.http.port > 65535 then
      errorf (ascii "invalid HTTP port number: " ++ Itoa c.http.port)
    else .ok { c with http := { c.http with address := JoinHostPort c.host (Itoa c.http.port) } }
  else .ok c

/-- Lines 72-92 of `init`: the HTTPS port and address, the certificate and
the key. -/
def initHTTPS (fs : FileSystem) (c : configuration) : Except Failure configuration :=
  if c.https.enabled then
    if c.https.port = 0 then errorf (ascii "HTTPS port must be specified")
    else if c.https.port < 0 ∨ c.https.port > 65535 then
      errorf (ascii "invalid HTTPS port number: " ++ Itoa c.https.port)
    else
      let c1 := { c with https := { c.https with address := JoinHostPort c.host (Itoa c.https.port) } }
      if c1.https.cert.length = 0 then errorf (ascii "SSL certificate file must be specified")
      else
        match fileExists fs c1.https.cert with
        | .error e => .error e
        | .ok false =>
          errorf (ascii "SSL certificate file specified but not found: " ++ c1.https.cert)
        | .ok true =>
          if c1.https.key.length = 0 then errorf (ascii "RSA private key file must be specified")
          else
            match fileExists fs c1.https.key with
            | .error e => .error e
            | .ok false =>
              errorf (ascii "RSA private key file specified but not found: " ++ c1.https.key)
            | .ok true => .ok c1
  else .ok c

/-- Lines 94-106 of `init`: the hashes of the user name and of the password. -/
def initAuth (c : configuration) : Except Failure configuration :=
  if c.auth.enabled then
    if c.auth.username.length > 0 then
      let c1 := { c with auth := { c.auth with userHash := sha256.Sum256 c.auth.username } }
      if c1.auth.password.length > 0 then
        .ok { c1 with auth := { c1.auth with passHash := sha256.Sum256 c1.auth.password } }
      else errorf (ascii "password cannot be empty")
    else errorf (ascii "username cannot be empty")
  else .ok c

/-- One of the three blocks of lines 108-133 of `init`: a negative timeout is
refused, otherwise `time.ParseDuration(fmt.Sprintf("%vs", n))` is the duration
or the error, reported under the option's name. -/
def initTimeout (name : Bytes) (n : Int) : Except Failure Int :=
  if n < 0 then errorf (name ++ ascii " cannot be smaller than 0")
  else
    match time.ParseDuration (Itoa n ++ ascii "s") with
    | .error e => errorf (name ++ ascii ": " ++ e)
    | .ok d => .ok d

/-- Lines 108-133 of `init`: the read, write and dial timeouts, in this order. -/
def initTimeouts (c : configuration) : Except Failure configuration :=
  match initTimeout (ascii "timeout-read") c.timeout.read with
  | .error e => .error e
  | .ok r =>
    match initTimeout (ascii "timeout-write") c.timeout.write with
    | .error e => .error e
    | .ok w =>
      match initTimeout (ascii "timeout-dial") c.timeout.dial with
      | .error e => .error e
      | .ok d =>
        .ok { c with timeout :=
          { c.timeout with readDuration := r, writeDuration := w, dialDuration := d } }

/-- Go `(*configuration).init`: validates the configuration in place and
returns the first error; `fs` is the file system `fileExists` looks at. -/
def init (fs : FileSystem) (c : configuration) : Except Failure configuration :=
  if !c.http.enabled && !c.https.enabled then errorf (ascii "HTTP or HTTPS must be enabled")
  else
    match initHTTP c with
    | .error e => .error e
    | .ok c1 =>
      match initHTTPS fs c1 with
      | .error e => .error e
      | .ok c2 =>
        match initAuth c2 with
        | .error e => .error e
        | .ok c3 => initTimeouts c3

end configuration

/-! ## net/http -/

namespace http

/-- Go `http.Header`, a `map[string][]string`: the entries, keys distinct, in
the order a `range` statement visits them (any order). -/
abbrev Header := List (Bytes × List Bytes)

/-- Go `httpguts`: the bytes of an HTTP token, which are letters, digits
and ``!#$%&'*+-.^_`|~``. -/
def validHeaderFieldByte (c : Byte) : Bool :=
  (decide (48 ≤ c.val) && decide (c.val ≤ 57)) || (decide (65 ≤ c.val) && decide (c.val ≤ 90)) ||
    (decide (97 ≤ c.val) && decide (c.val ≤ 122)) ||
    decide (c ∈ ([33, 35, 36, 37, 38, 39, 42, 43, 45, 46, 94, 95, 96, 124, 126] : Bytes))

/-- The second loop of `textproto.canonicalMIMEHeaderKey`: upper case for the
first letter and after each dash, lower case elsewhere. -/
def canonicalize : Bool → Bytes → Bytes
  | _, [] => []
  | upper, c :: s =>
    let c1 : Byte :=
      if upper ∧ 97 ≤ c.val ∧ c.val ≤ 122 then Fin.ofNat (c.val - 32)
      else if ¬ upper ∧ 65 ≤ c.val ∧ c.val ≤ 90 then Fin.ofNat (c.val + 32)
      else c
    c1 :: canonicalize (decide (c1 = 45)) s

/-- Go `http.CanonicalHeaderKey` (`textproto.CanonicalMIMEHeaderKey`): a key
with a byte that is not a token byte is returned unchanged. -/
def CanonicalHeaderKey (s : Bytes) : Bytes :=
  if s.all validHeaderFieldByte then canonicalize true s else s

namespace Header

/-- The map lookup `h[key]`, with the nil slice for a missing key. -/
def values : Header → Bytes → List Bytes
  | [], _ => []
  | (k, vv) :: h, key => if k = key then vv else values h key

/-- Whether the map has the key. -/
def has : Header → Bytes → Bool
  | [], _ => false
  | (k, _) :: h, key => decide (k = key) || has h key

/-- The map store `h[key] = vv`. -/
def store : Header → Bytes → List Bytes → Header
  | [], key, vv => [(key, vv)]
  | (k, old) :: h, key, vv => if k = key then (key, vv) :: h else (k, old) :: store h key vv

/-- The map deletion `delete(h, key)`. -/
def delete : Header → Bytes → Header
  | [], _ => []
  | (k, vv) :: h, key => if k = key then delete h key else (k, vv) :: delete h key

/-- Go `Header.Get`: the first value of the canonical key, or `""`. -/
def Get (h : Header) (key : Bytes) : Bytes := (values h (CanonicalHeaderKey key)).headD []

/-- Go `Header.Set`. -/
def Set (h : Header) (key value : Bytes) : Header := store h (CanonicalHeaderKey key) [value]

/-- Go `Header.Add`. -/
def Add (h : Header) (key value : Bytes) : Header :=
  store h (CanonicalHeaderKey key) (values h (CanonicalHeaderKey key) ++ [value])

/-- Go `Header.Del`. -/
def Del (h : Header) (key : Bytes) : Header := delete h (CanonicalHeaderKey key)

end Header

/-- The fields of Go `http.Request` the handlers use. -/
structure Request where
  Method : Bytes
  Host : Bytes
  RemoteAddr : Bytes
  Header : http.Header
  Body : Bytes
deriving DecidableEq, Repr

/-- The fields of Go `http.Response` the handlers use. -/
structure Response where
  StatusCode : Int
  Header : http.Header
  Body : Bytes
deriving DecidableEq, Repr

/-- A network connection: the client's, or one dialed to an address. -/
inductive Conn where
  | client
  | upstream (addr : Bytes)
deriving DecidableEq, Repr

/-- What `Hijack()` returns: the client connection, or an error (its text). -/
inductive HijackResult where
  | ok
  | error (msg : Bytes)
deriving DecidableEq, Repr

/-- Go `http.ResponseWriter` as `net/http` implements it. `header` is the map
`w.Header()`; the first final status written is the one sent, with a copy of
the header map of that moment; `informational` are the 1xx responses sent
before it; `body` are the bytes the handler wrote; `hijacker` is `none` when
the writer does not implement `http.Hijacker`, otherwise what `Hijack()`
returns. -/
structure ResponseWriter where
  header : http.Header
  wroteHeader : Bool
  status : Int
  sent : http.Header
  informational : List Int
  body : Bytes
  hijacker : Option HijackResult
deriving DecidableEq, Repr

namespace ResponseWriter

/-- The writer a handler receives: nothing written yet. -/
def fresh (hijacker : Option HijackResult) : ResponseWriter :=
  { header := [], wroteHeader := false, status := 0, sent := [], informational := [],
    body := [], hijacker := hijacker }

/-- Go `ResponseWriter.WriteHeader`: a call after the header was written is
superfluous and ignored; a code outside `100..999` panics (`none`); a 1xx code
other than 101 sends an informational response; any other code is final. -/
def WriteHeader (w : ResponseWriter) (code : Int) : Option ResponseWriter :=
  if w.wroteHeader then some w
  else if code < 100 ∨ code > 999 then none
  else if code ≤ 199 ∧ code ≠ 101 then some { w with informational := w.informational ++ [code] }
  else some { w with wroteHeader := true, status := code, sent := w.header }

/-- Go `ResponseWriter.Write`: writes the header with status 200 first when
none was written. -/
def Write (w : ResponseWriter) (b : Bytes) : Option ResponseWriter :=
  (if w.wroteHeader then some w else w.WriteHeader 200).map fun w1 =>
    { w1 with body := w1.body ++ b }

end ResponseWriter

/-- The table of Go `http.StatusText`. -/
def statusTexts : List (Int × String) :=
  [(100, "Continue"), (101, "Switching Protocols"), (102, "Processing"), (103, "Early Hints"),
   (200, "OK"), (201, "Created"), (202, "Accepted"), (203, "Non-Authoritative Information"),
   (204, "No Content"), (205, "Reset Content"), (206, "Partial Content"), (207, "Multi-Status"),
   (208, "Already Reported"), (226, "IM Used"), (300, "Multiple Choices"),
   (301, "Moved Permanently"), (302, "Found"), (303, "See Other"), (304, "Not Modified"),
   (305, "Use Proxy"), (307, "Temporary Redirect"), (308, "Permanent Redirect"),
   (400, "Bad Request"), (401, "Unauthorized"), (402, "Payment Required"), (403, "Forbidden"),
   (404, "Not Found"), (405, "Method Not Allowed"), (406, "Not Acceptable"),
   (407, "Proxy Authentication Required"), (408, "Request Timeout"), (409, "Conflict"),
   (410, "Gone"), (411, "Length Required"), (412, "Precondition Failed"),
   (413, "Request Entity Too Large"), (414, "Request URI Too Long"),
   (415, "Unsupported Media Type"), (416, "Requested Range Not Satisfiable"),
   (417, "Expectation Failed"), (418, "I'm a teapot"), (421, "Misdirected Request"),
   (422, "Unprocessable Entity"), (423, "Locked"), (424, "Failed Dependency"),
   (425, "Too Early"), (426, "Upgrade Required"), (428, "Precondition Required"),
   (429, "Too Many Requests"), (431, "Request Header Fields Too Large"),
   (451, "Unavailable For Legal Reasons"), (500, "Internal Server Error"),
   (501, "Not Implemented"), (502, "Bad Gateway"), (503, "Service Unavailable"),
   (504, "Gateway Timeout"), (505, "HTTP Version Not Supported"),
   (506, "Variant Also Negotiates"), (507, "Insufficient Storage"), (508, "Loop Detected"),
   (510, "Not Extended"), (511, "Network Authentication Required")]

/-- Go `http.StatusText`: the text of a status code, empty for an unknown code. -/
def StatusText (code : Int) : Bytes :=
  match statusTexts.lookup code with
  | some text => ascii text
  | none => []

/-- Go `http.Error`: sets the content type headers, writes the status code and
prints the message with `fmt.Fprintln`, that is followed by a line feed. -/
def Error (w : ResponseWriter) (error : Bytes) (code : Int) : Option ResponseWriter :=
  let h := ((w.header.Del (ascii "Content-Length")).Set (ascii "Content-Type")
    (ascii "text/plain; charset=utf-8")).Set (ascii "X-Content-Type-Options") (ascii "nosniff")
  ({ w with header := h }.WriteHeader code).bind fun w1 => w1.Write (error ++ [lf])

end http

/-! ## cmd/server.go -/

/-- Go `BasicAuthName`. -/
def BasicAuthName : Bytes := ascii "Basic"

/-- Go `ProxyAuthorizationKey`. -/
def ProxyAuthorizationKey : Bytes := ascii "Proxy-Authorization"

/-- Go `ProxyAuthenticateKey`. -/
def ProxyAuthenticateKey : Bytes := ascii "Proxy-Authenticate"

/-- Go `hopHeaders`: "Hop-by-hop headers. These are removed when sent to the
backend." -/
def hopHeaders : List Bytes :=
  [ascii "Connection", ascii "Proxy-Connection", ascii "Keep-Alive", ascii "Proxy-Authenticate",
   ascii "Proxy-Authorization", ascii "Te", ascii "Trailer", ascii "Transfer-Encoding",
   ascii "Upgrade"]

/-- The three loggers of `logger.go`. -/
inductive Logger where
  | info
  | error
  | conn
deriving DecidableEq, Repr

/-- The two request handlers. -/
inductive Route where
  | handleTunneling
  | handleHTTP
deriving DecidableEq, Repr

/-- What a handler can call outside the program: `net.DialTimeout("tcp", addr, d)`
and `http.DefaultTransport.RoundTrip(req)`, each giving its result or the text
of its error. -/
structure Env where
  DialTimeout : Bytes → Int → Except Bytes Unit
  RoundTrip : http.Request → Except Bytes http.Response

/-- What a handler has done when it returns: the response writer, the lines
logged, the handlers that ran, the addresses dialed, the requests handed to
`RoundTrip`, the copy tasks started with `go s.transfer(destination, source)`,
and the request as the handler leaves it. -/
structure Effects where
  w : http.ResponseWriter
  log : List (Logger × Bytes)
  invoked : List Route
  dialed : List Bytes
  upstream : List http.Request
  transfers : List (http.Conn × http.Conn)
  req : http.Request
deriving DecidableEq, Repr

/-- A Go channel as `make(chan T, cap)` allocates it. -/
structure Chan where
  cap : Nat
  closed : Bool
deriving DecidableEq, Repr

/-- Go `make(chan T)`: an unbuffered channel. -/
def makeChan : Chan := { cap := 0, closed := false }

/-- The fields of Go `http.Server` that `createServer` sets, the handler
apart. -/
structure Server where
  Addr : Bytes
  ReadTimeout : Int
  WriteTimeout : Int
  TLSNextProto : List Bytes
deriving DecidableEq, Repr

/-- A task started with `go`: a listener on an address (with the certificate
and key files for TLS), or the signal watcher `s.close()`. -/
inductive Task where
  | ListenAndServe (srv : Server)
  | ListenAndServeTLS (srv : Server) (cert key : Bytes)
  | close
deriving DecidableEq, Repr

/-- Go `type appServer struct`; a server that was not created is `none`. -/
structure appServer where
  http : Option Server
  https : Option Server
  idle : Chan
  errors : Chan
deriving DecidableEq, Repr

namespace appServer

/-- Go `(*appServer).parseBasicAuth`. -/
def parseBasicAuth (auth : Bytes) : Bytes × Bytes × Bool :=
  let pre := BasicAuthName ++ ascii " "
  if !HasPrefix auth pre then ([], [], false)
  else
    match base64.DecodeString (auth.drop pre.length) with
    | none => ([], [], false)
    | some cs =>
      let st := IndexByte cs colon
      if st < 0 then ([], [], false)
      else (cs.take st.toNat, cs.drop (st.toNat + 1), true)

/-- Go `(*appServer).basicAuth`; `config` is the global configuration. -/
def basicAuth (config : configuration) (auth : Bytes) : Bool :=
  match parseBasicAuth auth with
  | (u, p, true) =>
    let username := sha256.Sum256 u
    let password := sha256.Sum256 p
    let usernameMatch := decide (subtle.ConstantTimeCompare config.auth.userHash username = 1)
    let passwordMatch := decide (subtle.ConstantTimeCompare config.auth.passHash password = 1)
    if usernameMatch && passwordMatch then true else false
  | (_, _, false) => false

/-- A handler that has only touched the response writer and the log. -/
def reply (r : http.Request) (log : List (Logger × Bytes)) (invoked : List Route)
    (dialed : List Bytes) (upstream : List http.Request) (w : http.ResponseWriter) : Effects :=
  { w := w, log := log, invoked := invoked, dialed := dialed, upstream := upstream,
    transfers := [], req := r }

/-- Go `(*appServer).handleTunneling`; `none` is a panic. -/
def handleTunneling (config : configuration) (env : Env) (w : http.ResponseWriter)
    (r : http.Request) : Option Effects :=
  match env.DialTimeout r.Host config.timeout.dialDuration with
  | .error err =>
    (http.Error w err 503).map
      (reply r [(.error, ascii "handleTunneling - DialTimeout error: " ++ err ++ [lf])]
        [.handleTunneling] [r.Host] [])
  | .ok _ =>
    (w.WriteHeader 200).bind fun w1 =>
      match w1.hijacker with
      | none =>
        (http.Error w1 (ascii "Hijacking not supported") 500).map
          (reply r [] [.handleTunneling] [r.Host] [])
      | some (.error err) =>
        (http.Error w1 err 503).map
          (reply r [(.error, ascii "handleTunneling - Hijack error: " ++ err ++ [lf])]
            [.handleTunneling] [r.Host] [])
      | some .ok =>
        some { w := w1, log := [], invoked := [.handleTunneling], dialed := [r.Host],
               upstream := [],
               transfers := [(.upstream r.Host, .client), (.client, .upstream r.Host)],
               req := r }

/-- The loop `for _, h := range hopHeaders { req.Header.Del(h) }`. -/
def removeHopHeaders (req : http.Request) : http.Request :=
  hopHeaders.foldl (fun q h => { q with Header := q.Header.Del h }) req

/-- The loop `for k, vv := range resp.Header { for _, v := range vv { w.Header().Add(k, v) } }`. -/
def copyHeaders (w : http.ResponseWriter) (h : http.Header) : http.ResponseWriter :=
  h.foldl (fun w1 kv => kv.2.foldl (fun w2 v => { w2 with header := w2.header.Add kv.1 v }) w1) w

/-- Go `io.Copy(w, resp.Body)`: an empty body is no write at all. -/
def copyBody (w : http.ResponseWriter) (body : Bytes) : Option http.ResponseWriter :=
  if body = [] then some w else w.Write body

/-- Go `(*appServer).handleHTTP`; `none` is a panic. -/
def handleHTTP (env : Env) (w : http.ResponseWriter) (req : http.Request) : Option Effects :=
  match env.RoundTrip req with
  | .error err =>
    (http.Error w err 503).map
      (reply req [(.error, ascii "handleHTTP - RoundTrip error: " ++ err ++ [lf])]
        [.handleHTTP] [] [req])
  | .ok resp =>
    let req1 := removeHopHeaders req
    let w1 := copyHeaders w resp.Header
    (w1.WriteHeader resp.StatusCode).bind fun w2 =>
      (copyBody w2 resp.Body).map
        (reply req1 [] [.handleHTTP] [] [req])

/-- The `Handler` of the server `createServer` returns, the request
dispatcher; `none` is a panic. -/
def Handler (config : configuration) (env : Env) (w : http.ResponseWriter)
    (r : http.Request) : Option Effects :=
  if config.auth.enabled ∧ ¬ basicAuth config (r.Header.Get ProxyAuthorizationKey) then
    let w1 := { w with header := w.header.Set ProxyAuthenticateKey BasicAuthName }
    (http.Error w1 (http.StatusText 407) 407).map
      (reply r [(.error, ascii "authentication failed " ++ r.RemoteAddr)] [] [] [])
  else
    let line : Logger × Bytes := (.conn, ascii "new connection from " ++ r.RemoteAddr)
    (if r.Method = ascii "CONNECT" then handleTunneling config env w r
     else handleHTTP env w r).map fun e => { e with log := line :: e.log }

/-- Go `(*appServer).createServer`, the handler apart (it is `Handler`): an
empty `TLSNextProto` map disables HTTP/2. -/
def createServer (config : configuration) (addr : Bytes) : Server :=
  { Addr := addr, ReadTimeout := config.timeout.readDuration,
    WriteTimeout := config.timeout.writeDuration, TLSNextProto := [] }

/-- Go `(*appServer).start` up to the point where it blocks on the errors
channel: the server record with its two channels, and the tasks started. -/
def start (config : configuration) : appServer × List Task :=
  let errors := makeChan
  let idle := makeChan
  let http := if config.http.enabled then some (createServer config config.http.address) else none
  let https := if config.https.enabled then some (createServer config config.https.address) else none
  ({ http := http, https := https, idle := idle, errors := errors },
    (match http with
      | some srv => [Task.ListenAndServe srv]
      | none => []) ++
    (match https with
      | some srv => [Task.ListenAndServeTLS srv config.https.cert config.https.key]
      | none => []) ++ [Task.close])

end appServer

/-! ## Definitions the statements use -/

/-- The number a string of decimal digits denotes when read after the digits of
`x`. -/
def digitsValue (x : Nat) (ds : Bytes) : Nat := ds.foldl (fun v c => v * 10 + (c.val - 48)) x

namespace base64

/-- Whether `c` belongs to the base64 alphabet of RFC 4648, table 1: the
letters, the digits, `'+'` and `'/'`. -/
def inAlphabet (c : Byte) : Bool :=
  (decide (65 ≤ c.val) && decide (c.val ≤ 90)) || (decide (97 ≤ c.val) && decide (c.val ≤ 122)) ||
    (decide (48 ≤ c.val) && decide (c.val ≤ 57)) || decide (c = 43) || decide (c = 47)

/-- Standard base64 text as RFC 4648 describes it: groups of four characters
of the alphabet, the last group possibly ending in one or two `'='`. -/
def validStd : Bytes → Bool
  | [] => true
  | a :: b :: c :: d :: rest =>
    inAlphabet a && inAlphabet b &&
      ((inAlphabet c && inAlphabet d && validStd rest) ||
        (decide (rest = []) && decide (d = padChar) && (inAlphabet c || decide (c = padChar))))
  | _ => false

/-- The same language read one character at a time, `j` characters into the
current group. -/
def validFrom : Nat → Bytes → Bool
  | j, [] => decide (j = 0)
  | j, c :: s =>
    if inAlphabet c then validFrom (if j = 3 then 0 else j + 1) s
    else decide (c = padChar) && ((decide (j = 2) && decide (s = [padChar])) ||
      (decide (j = 3) && decide (s = [])))

end base64

/-- The largest number of seconds `time.ParseDuration` accepts with the unit
`s`: `(1 << 63) / 10^9`. -/
def maxSeconds : Int := 9223372036

namespace configuration

/-- The configuration `init` leaves on success: the bind addresses of the
enabled listeners, the hashes when authentication is enabled, and the three
durations in nanoseconds. -/
def validated (c : configuration) : configuration :=
  { c with
    http := { c.http with
      address := if c.http.enabled then JoinHostPort c.host (Itoa c.http.port)
        else c.http.address },
    https := { c.https with
      address := if c.https.enabled then JoinHostPort c.host (Itoa c.https.port)
        else c.https.address },
    auth := { c.auth with
      userHash := if c.auth.enabled then sha256.Sum256 c.auth.username else c.auth.userHash,
      passHash := if c.auth.enabled then sha256.Sum256 c.auth.password else c.auth.passHash },
    timeout := { c.timeout with
      readDuration := c.timeout.read * 1000000000,
      writeDuration := c.timeout.write * 1000000000,
      dialDuration := c.timeout.dial * 1000000000 } }

/-- The configuration after the HTTP block of `init`. -/
def afterHTTP (c : configuration) : configuration :=
  { c with http := (validated c).http }

/-- The configuration after the HTTPS block of `init`. -/
def afterHTTPS (c : configuration) : configuration :=
  { c with https := (validated c).https }

/-- The configuration after the authentication block of `init`. -/
def afterAuth (c : configuration) : configuration :=
  { c with auth := (validated c).auth }

/-- The configuration after the timeout blocks of `init`. -/
def afterTimeouts (c : configuration) : configuration :=
  { c with timeout := (validated c).timeout }

/-- The conditions of success as the specification lists them. -/
def validAsStated (fs : FileSystem) (c : configuration) : Prop :=
  (c.http.enabled = true ∨ c.https.enabled = true) ∧
  (c.http.enabled = true → 1 ≤ c.http.port ∧ c.http.port ≤ 65535) ∧
  (c.https.enabled = true → 1 ≤ c.https.port ∧ c.https.port ≤ 65535 ∧
    c.https.cert ≠ [] ∧ fs c.https.cert = .file ∧ c.https.key ≠ [] ∧ fs c.https.key = .file) ∧
  (c.auth.enabled = true → c.auth.username ≠ [] ∧ c.auth.password ≠ []) ∧
  0 ≤ c.timeout.read ∧ 0 ≤ c.timeout.write ∧ 0 ≤ c.timeout.dial

instance (fs : FileSystem) (c : configuration) : Decidable (validAsStated fs c) := by
  unfold validAsStated
  infer_instance

/-- The conditions of success with the bound on the timeouts that the
conversion to a duration adds. -/
def valid (fs : FileSystem) (c : configuration) : Prop :=
  validAsStated fs c ∧ c.timeout.read ≤ maxSeconds ∧ c.timeout.write ≤ maxSeconds ∧
    c.timeout.dial ≤ maxSeconds

instance (fs : FileSystem) (c : configuration) : Decidable (valid fs c) := by
  unfold valid
  infer_instance

end configuration

/-- The command line `--enable-http --port-http 8080` with every other flag
at its default (root.go). -/
def minimalConfig : configuration :=
  { host := [],
    http := { enabled := true, port := 8080, address := [] },
    https := { enabled := false, port := 443, address := [], cert := [], key := [] },
    auth := { enabled := false, username := [], password := [],
              userHash := List.replicate 32 0, passHash := List.replicate 32 0 },
    timeout := { read := 0, write := 0, dial := 10,
                 readDuration := 0, writeDuration := 0, dialDuration := 0 },
    log := { enabled := false, dir := ascii "log", connections := true },
    quiet := false }

/-- A file system with no file at all. -/
def emptyFS : FileSystem := fun _ => .notExist

/-- The failure conditions of `init`, in the order it tests them. -/
inductive Condition where
  | noListener
  | httpPortUnset
  | httpPortRange
  | httpsPortUnset
  | httpsPortRange
  | certEmpty
  | certMissing
  | keyEmpty
  | keyMissing
  | usernameEmpty
  | passwordEmpty
  | readNegative
  | readTooLarge
  | writeNegative
  | writeTooLarge
  | dialNegative
  | dialTooLarge
deriving DecidableEq, Repr

namespace Condition

/-- Whether the condition holds of a configuration, that is, fails it. -/
def holds (fs : FileSystem) (c : configuration) : Condition → Prop
  | noListener => c.http.enabled = false ∧ c.https.enabled = false
  | httpPortUnset => c.http.enabled = true ∧ c.http.port = 0
  | httpPortRange => c.http.enabled = true ∧ (c.http.port < 0 ∨ c.http.port > 65535)
  | httpsPortUnset => c.https.enabled = true ∧ c.https.port = 0
  | httpsPortRange => c.https.enabled = true ∧ (c.https.port < 0 ∨ c.https.port > 65535)
  | certEmpty => c.https.enabled = true ∧ c.https.cert = []
  | certMissing => c.https.enabled = true ∧
    (fs c.https.cert = .notExist ∨ fs c.https.cert = .directory)
  | keyEmpty => c.https.enabled = true ∧ c.https.key = []
  | keyMissing => c.https.enabled = true ∧
    (fs c.https.key = .notExist ∨ fs c.https.key = .directory)
  | usernameEmpty => c.auth.enabled = true ∧ c.auth.username = []
  | passwordEmpty => c.auth.enabled = true ∧ c.auth.password = []
  | readNegative => c.timeout.read < 0
  | readTooLarge => c.timeout.read > maxSeconds
  | writeNegative => c.timeout.write < 0
  | writeTooLarge => c.timeout.write > maxSeconds
  | dialNegative => c.timeout.dial < 0
  | dialTooLarge => c.timeout.dial > maxSeconds

instance (fs : FileSystem) (c : configuration) (k : Condition) : Decidable (k.holds fs c) := by
  cases k <;> simp only [holds] <;> infer_instance

/-- The fixed text at the start of the condition's error message. -/
def text : Condition → Bytes
  | noListener => ascii "HTTP or HTTPS must be enabled"
  | httpPortUnset => ascii "HTTP port must be specified"
  | httpPortRange => ascii "invalid HTTP port number: "
  | httpsPortUnset => ascii "HTTPS port must be specified"
  | httpsPortRange => ascii "invalid HTTPS port number: "
  | certEmpty => ascii "SSL certificate file must be specified"
  | certMissing => ascii "SSL certificate file specified but not found: "
  | keyEmpty => ascii "RSA private key file must be specified"
  | keyMissing => ascii "RSA private key file specified but not found: "
  | usernameEmpty => ascii "username cannot be empty"
  | passwordEmpty => ascii "password cannot be empty"
  | readNegative => ascii "timeout-read cannot be smaller than 0"
  | readTooLarge => ascii "timeout-read: "
  | writeNegative => ascii "timeout-write cannot be smaller than 0"
  | writeTooLarge => ascii "timeout-write: "
  | dialNegative => ascii "timeout-dial cannot be smaller than 0"
  | dialTooLarge => ascii "timeout-dial: "

/-- The value the message ends with: the port, the path, or the error of
`time.ParseDuration`. -/
def detail (c : configuration) : Condition → Bytes
  | httpPortRange => Itoa c.http.port
  | httpsPortRange => Itoa c.https.port
  | certMissing => c.https.cert
  | keyMissing => c.https.key
  | readTooLarge => time.invalidDuration (Itoa c.timeout.read ++ ascii "s")
  | writeTooLarge => time.invalidDuration (Itoa c.timeout.write ++ ascii "s")
  | dialTooLarge => time.invalidDuration (Itoa c.timeout.dial ++ ascii "s")
  | _ => []

/-- The error message of the condition. -/
def message (c : configuration) (k : Condition) : Bytes := k.text ++ k.detail c

/-- The conditions in the order `init` tests them. -/
def order : List Condition :=
  [noListener, httpPortUnset, httpPortRange, httpsPortUnset, httpsPortRange, certEmpty,
   certMissing, keyEmpty, keyMissing, usernameEmpty, passwordEmpty, readNegative, readTooLarge,
   writeNegative, writeTooLarge, dialNegative, dialTooLarge]

/-- The conditions the specification documents, in its order. -/
def documented : List Condition :=
  [noListener, httpPortUnset, httpPortRange, httpsPortUnset, httpsPortRange, certEmpty,
   certMissing, keyEmpty, keyMissing, usernameEmpty, passwordEmpty, readNegative,
   writeNegative, dialNegative]

/-- Whether two texts differ at a position both have. -/
def differ : Bytes → Bytes → Bool
  | a :: s, b :: t => decide (a ≠ b) || differ s t
  | _, _ => false

end Condition

/-- The first condition of `l` that holds. -/
def firstFailure (fs : FileSystem) (c : configuration) (l : List Condition) : Option Condition :=
  l.find? fun k => decide (k.holds fs c)

deriving instance DecidableEq for Except

/-- The minimal configuration with a read timeout of 9223372037 seconds. -/
def largeTimeoutConfig : configuration :=
  { minimalConfig with timeout := { minimalConfig.timeout with read := 9223372037 } }

/-- As `largeTimeoutConfig`, with a negative write timeout as well. -/
def largeReadNegativeWriteConfig : configuration :=
  { minimalConfig with timeout := { minimalConfig.timeout with read := 9223372037, write := -1 } }

/-- The configuration of the specification's scenarios 2 and 3:
`--enable-auth --username u --password p` added to the minimal one. -/
def userPassConfig : configuration :=
  { minimalConfig with
    auth := { minimalConfig.auth with enabled := true, username := ascii "u",
                                      password := ascii "p" } }

/-- A configuration whose user name contains a colon: `--username a:b --password p`. -/
def colonUserConfig : configuration :=
  { minimalConfig with
    auth := { minimalConfig.auth with enabled := true, username := ascii "a:b",
                                      password := ascii "p" } }

/-- The header value a client builds from its user name and password:
`"Basic " + base64(username + ":" + password)`. -/
def ownCredentials (c : configuration) : Bytes :=
  ascii "Basic " ++ base64.EncodeToString (c.auth.username ++ colon :: c.auth.password)

/-- An environment in which every dial and every round trip fails. -/
def unreachable : Env :=
  { DialTimeout := fun _ _ => .error (ascii "dial tcp: i/o timeout"),
    RoundTrip := fun _ => .error (ascii "dial tcp: i/o timeout") }

/-- An environment in which every dial succeeds and every round trip returns
the given response. -/
def reachable (resp : http.Response) : Env :=
  { DialTimeout := fun _ _ => .ok (), RoundTrip := fun _ => .ok resp }

/-- The upstream response of scenario 1: `200` with body `hello`. -/
def helloResponse : http.Response :=
  { StatusCode := 200, Header := [(ascii "Content-Type", [ascii "text/plain"])],
    Body := ascii "hello" }

/-- A `GET` request with no header. -/
def plainRequest : http.Request :=
  { Method := ascii "GET", Host := ascii "127.0.0.1:9999", RemoteAddr := ascii "127.0.0.1:40000",
    Header := [], Body := [] }

/-- A `GET` request carrying the client's credentials and a `Connection` header. -/
def authRequest : http.Request :=
  { plainRequest with
    Header := [(ascii "Proxy-Authorization", [ascii "Basic dTpw"]),
               (ascii "Connection", [ascii "keep-alive"])] }

/-- A `CONNECT` request. -/
def connectRequest : http.Request :=
  { plainRequest with Method := ascii "CONNECT", Host := ascii "echo.test:4242" }

/-- A header map as `http.Transport` fills it: distinct keys, each in
canonical form and with at least one value. -/
def http.Header.wellFormed (h : http.Header) : Prop :=
  (h.map Prod.fst).Nodup ∧ ∀ kv ∈ h, http.CanonicalHeaderKey kv.1 = kv.1 ∧ kv.2 ≠ []

/-- A status code that ends the response: 101 or one of `200..999` (the
transport consumes the other 1xx responses itself). -/
def finalStatus (code : Int) : Prop := code = 101 ∨ (200 ≤ code ∧ code ≤ 999)

/-! ## Lemmas -/

open appServer http configuration Condition

/-! ### crypto/sha256 and crypto/subtle -/

set_option maxRecDepth 100000 in
/-- The embedding of `sha256.Sum256` computes the standard test vector for `abc`. -/
theorem Sum256_abc :
    sha256.Sum256 (ascii "abc") =
      [0xba, 0x78, 0x16, 0xbf, 0x8f, 0x01, 0xcf, 0xea, 0x41, 0x41, 0x40, 0xde, 0x5d, 0xae, 0x22,
       0x23, 0xb0, 0x03, 0x61, 0xa3, 0x96, 0x17, 0x7a, 0x9c, 0xb4, 0x10, 0xff, 0x61, 0xf2, 0x00,
       0x15, 0xad] := by
  decide

theorem or_eq_zero_iff (a b : Nat) : a ||| b = 0 ↔ a = 0 ∧ b = 0 := by
  constructor
  · intro h
    have hb : ∀ i, a.testBit i = false ∧ b.testBit i = false := by
      intro i
      have := congrArg (fun n => n.testBit i) h
      simpa [Nat.testBit_or] using this
    exact ⟨Nat.eq_of_testBit_eq fun i => by simp [(hb i).1],
           Nat.eq_of_testBit_eq fun i => by simp [(hb i).2]⟩
  · rintro ⟨rfl, rfl⟩
    rfl

theorem ConstantTimeByteEq_zero (v : Nat) (hv : v < 256) :
    subtle.ConstantTimeByteEq v 0 = 1 ↔ v = 0 := by
  unfold subtle.ConstantTimeByteEq
  rw [Nat.xor_zero, Nat.shiftRight_eq_div_pow]
  omega

theorem orXor_lt (x y : Bytes) (v : Nat) (hv : v < 256) : subtle.orXor x y v < 256 := by
  induction x generalizing y v with
  | nil => simpa [subtle.orXor] using hv
  | cons a x ih =>
    cases y with
    | nil => simpa [subtle.orXor] using hv
    | cons b y =>
      simp only [subtle.orXor]
      apply ih
      exact Nat.or_lt_two_pow (n := 8) hv (Nat.xor_lt_two_pow (n := 8) a.isLt b.isLt)

theorem orXor_eq_zero (x y : Bytes) (v : Nat) (hl : x.length = y.length) :
    subtle.orXor x y v = 0 ↔ v = 0 ∧ x = y := by
  induction x generalizing y v with
  | nil =>
    cases y with
    | nil => simp [subtle.orXor]
    | cons b y => simp at hl
  | cons a x ih =>
    cases y with
    | nil => simp at hl
    | cons b y =>
      simp only [subtle.orXor]
      rw [ih y _ (by simpa using hl), or_eq_zero_iff, Nat.xor_eq_zero]
      constructor
      · rintro ⟨⟨h1, h2⟩, h3⟩
        exact ⟨h1, by rw [Fin.ext h2, h3]⟩
      · rintro ⟨h1, h2⟩
        injection h2 with h2 h3
        exact ⟨⟨h1, by rw [h2]⟩, h3⟩

/-- Go `subtle.ConstantTimeCompare` returns 1 exactly on equal slices. -/
theorem ConstantTimeCompare_eq_one (x y : Bytes) :
    subtle.ConstantTimeCompare x y = 1 ↔ x = y := by
  unfold subtle.ConstantTimeCompare
  by_cases hl : x.length = y.length
  · rw [if_neg (by simpa using hl), ConstantTimeByteEq_zero _ (orXor_lt x y 0 (by decide)),
      orXor_eq_zero x y 0 hl]
    simp
  · rw [if_pos hl]
    constructor
    · intro h; cases h
    · intro h; exact absurd (congrArg List.length h) hl

/-! ### encoding/base64 -/

namespace base64

theorem or_eq_add (a b i : Nat) (h1 : 2 ^ i ∣ a) (h2 : b < 2 ^ i) : a ||| b = a + b := by
  obtain ⟨k, rfl⟩ := h1
  exact (Nat.mul_add_lt_is_or h2 k).symm

theorem decodeMap_encodeChar : ∀ i : Fin 64, decodeMap (encodeStd.getD i.val 0) = i.val := by
  decide

theorem decodeMap_encodeChar_nat (n : Nat) : decodeMap (encodeChar n) = n % 64 := by
  unfold encodeChar
  have h : n &&& 0x3F = n % 64 := Nat.and_pow_two_sub_one_eq_mod n 6
  rw [h]
  exact decodeMap_encodeChar ⟨n % 64, Nat.mod_lt _ (by decide)⟩

theorem assemble_eq (s0 s1 s2 s3 : Nat) (h1 : s1 < 64) (h2 : s2 < 64)
    (h3 : s3 < 64) :
    s0 <<< 18 ||| s1 <<< 12 ||| s2 <<< 6 ||| s3 = s0 * 262144 + s1 * 4096 + s2 * 64 + s3 := by
  rw [Nat.shiftLeft_eq, Nat.shiftLeft_eq, Nat.shiftLeft_eq,
    or_eq_add (s0 * 2 ^ 18) (s1 * 2 ^ 12) 18 (Dvd.intro_left _ rfl) (by omega),
    or_eq_add _ (s2 * 2 ^ 6) 12 ⟨s0 * 64 + s1, by omega⟩ (by omega),
    or_eq_add _ s3 6 ⟨s0 * 4096 + s1 * 64 + s2, by omega⟩ (by omega)]
  omega

theorem pack3_eq (a b c : Nat) (hb : b < 256) (hc : c < 256) :
    a <<< 16 ||| b <<< 8 ||| c = a * 65536 + b * 256 + c := by
  rw [Nat.shiftLeft_eq, Nat.shiftLeft_eq,
    or_eq_add (a * 2 ^ 16) (b * 2 ^ 8) 16 (Dvd.intro_left _ rfl) (by omega),
    or_eq_add _ c 8 ⟨a * 256 + b, by omega⟩ (by omega)]
  omega

theorem ofNat_val (a : Byte) (n : Nat) (h : n % 256 = a.val) : (Fin.ofNat n : Byte) = a := by
  apply Fin.ext
  simpa [Fin.ofNat] using h

theorem quantum3 (a b c : Byte) :
    quantumBytes [(a.val <<< 16 ||| b.val <<< 8 ||| c.val) >>> 18 % 64,
      (a.val <<< 16 ||| b.val <<< 8 ||| c.val) >>> 12 % 64,
      (a.val <<< 16 ||| b.val <<< 8 ||| c.val) >>> 6 % 64,
      (a.val <<< 16 ||| b.val <<< 8 ||| c.val) % 64] 4 = [a, b, c] := by
  have ha := a.isLt
  have hb := b.isLt
  have hc := c.isLt
  rw [pack3_eq _ _ _ hb hc]
  simp only [quantumBytes, List.getD_cons_zero, List.getD_cons_succ]
  rw [assemble_eq _ _ _ _ (Nat.mod_lt _ (by decide)) (Nat.mod_lt _ (by decide))
    (Nat.mod_lt _ (by decide))]
  simp only [Nat.shiftRight_eq_div_pow]
  have e1 : (Fin.ofNat (((a.val * 65536 + b.val * 256 + c.val) / 2 ^ 18 % 64 * 262144 +
      (a.val * 65536 + b.val * 256 + c.val) / 2 ^ 12 % 64 * 4096 +
      (a.val * 65536 + b.val * 256 + c.val) / 2 ^ 6 % 64 * 64 +
      (a.val * 65536 + b.val * 256 + c.val) % 64) / 2 ^ 16) : Byte) = a :=
    ofNat_val _ _ (by omega)
  have e2 : (Fin.ofNat (((a.val * 65536 + b.val * 256 + c.val) / 2 ^ 18 % 64 * 262144 +
      (a.val * 65536 + b.val * 256 + c.val) / 2 ^ 12 % 64 * 4096 +
      (a.val * 65536 + b.val * 256 + c.val) / 2 ^ 6 % 64 * 64 +
      (a.val * 65536 + b.val * 256 + c.val) % 64) / 2 ^ 8) : Byte) = b :=
    ofNat_val _ _ (by omega)
  have e3 : (Fin.ofNat ((a.val * 65536 + b.val * 256 + c.val) / 2 ^ 18 % 64 * 262144 +
      (a.val * 65536 + b.val * 256 + c.val) / 2 ^ 12 % 64 * 4096 +
      (a.val * 65536 + b.val * 256 + c.val) / 2 ^ 6 % 64 * 64 +
      (a.val * 65536 + b.val * 256 + c.val) % 64) : Byte) = c :=
    ofNat_val _ _ (by omega)
  rw [e1, e2, e3]
  rfl

theorem quantum2 (a b : Byte) :
    quantumBytes [(a.val <<< 16 ||| b.val <<< 8) >>> 18 % 64,
      (a.val <<< 16 ||| b.val <<< 8) >>> 12 % 64,
      (a.val <<< 16 ||| b.val <<< 8) >>> 6 % 64] 3 = [a, b] := by
  have ha := a.isLt
  have hb := b.isLt
  have hv : a.val <<< 16 ||| b.val <<< 8 = a.val * 65536 + b.val * 256 := by
    rw [Nat.shiftLeft_eq, Nat.shiftLeft_eq,
      or_eq_add (a.val * 2 ^ 16) (b.val * 2 ^ 8) 16 (Dvd.intro_left _ rfl) (by omega)]
    omega
  rw [hv]
  simp only [quantumBytes, List.getD_cons_zero, List.getD_cons_succ, List.getD_nil]
  rw [assemble_eq _ _ _ _ (Nat.mod_lt _ (by decide)) (Nat.mod_lt _ (by decide)) (by decide)]
  simp only [Nat.shiftRight_eq_div_pow]
  have e1 : (Fin.ofNat (((a.val * 65536 + b.val * 256) / 2 ^ 18 % 64 * 262144 +
      (a.val * 65536 + b.val * 256) / 2 ^ 12 % 64 * 4096 +
      (a.val * 65536 + b.val * 256) / 2 ^ 6 % 64 * 64 + 0) / 2 ^ 16) : Byte) = a :=
    ofNat_val _ _ (by omega)
  have e2 : (Fin.ofNat (((a.val * 65536 + b.val * 256) / 2 ^ 18 % 64 * 262144 +
      (a.val * 65536 + b.val * 256) / 2 ^ 12 % 64 * 4096 +
      (a.val * 65536 + b.val * 256) / 2 ^ 6 % 64 * 64 + 0) / 2 ^ 8) : Byte) = b :=
    ofNat_val _ _ (by omega)
  rw [e1, e2]
  rfl

theorem quantum1 (a : Byte) :
    quantumBytes [(a.val <<< 16) >>> 18 % 64, (a.val <<< 16) >>> 12 % 64] 2 = [a] := by
  have ha := a.isLt
  simp only [quantumBytes, List.getD_cons_zero, List.getD_cons_succ, List.getD_nil]
  rw [assemble_eq _ _ _ _ (Nat.mod_lt _ (by decide)) (by decide) (by decide)]
  simp only [Nat.shiftRight_eq_div_pow, Nat.shiftLeft_eq]
  have e1 : (Fin.ofNat ((a.val * 2 ^ 16 / 2 ^ 18 % 64 * 262144 +
      a.val * 2 ^ 16 / 2 ^ 12 % 64 * 4096 + 0 * 64 + 0) / 2 ^ 16) : Byte) = a :=
    ofNat_val _ _ (by omega)
  rw [e1]
  rfl

theorem decodeMap_encodeChar_ne (n : Nat) : decodeMap (encodeChar n) ≠ 0xff := by
  rw [decodeMap_encodeChar_nat]
  omega

theorem decode_symbol (c : Byte) (s : Bytes) (dbuf : List Nat) (h : decodeMap c ≠ 0xff) :
    decode (c :: s) dbuf =
      if dbuf.length = 3 then
        (decode s []).map fun rest => quantumBytes (dbuf ++ [decodeMap c]) 4 ++ rest
      else decode s (dbuf ++ [decodeMap c]) := by
  simp [decode, h]

theorem decodeMap_padChar : decodeMap padChar = 0xff := by decide

theorem padChar_not_newline : ¬ (padChar = lf ∨ padChar = cr) := by decide

theorem decode_pad3 (s : Bytes) (dbuf : List Nat) (h : dbuf.length = 3) :
    decode (padChar :: s) dbuf =
      if skipNewlines s = [] then some (quantumBytes dbuf 3) else none := by
  simp [decode, decodeMap_padChar, padChar_not_newline, h]

theorem decode_pad2 (s : Bytes) (dbuf : List Nat) (h : dbuf.length = 2) :
    decode (padChar :: padChar :: s) dbuf =
      if skipNewlines s = [] then some (quantumBytes dbuf 2) else none := by
  simp [decode, decodeMap_padChar, padChar_not_newline, h, skipNewlines]

theorem decode_quantum (a b c : Byte) (s : Bytes) :
    decode (encodeChar ((a.val <<< 16 ||| b.val <<< 8 ||| c.val) >>> 18) ::
      encodeChar ((a.val <<< 16 ||| b.val <<< 8 ||| c.val) >>> 12) ::
      encodeChar ((a.val <<< 16 ||| b.val <<< 8 ||| c.val) >>> 6) ::
      encodeChar (a.val <<< 16 ||| b.val <<< 8 ||| c.val) :: s) [] =
    (decode s []).map fun rest => a :: b :: c :: rest := by
  rw [decode_symbol _ _ _ (decodeMap_encodeChar_ne _), if_neg (by simp),
    decode_symbol _ _ _ (decodeMap_encodeChar_ne _), if_neg (by simp),
    decode_symbol _ _ _ (decodeMap_encodeChar_ne _), if_neg (by simp),
    decode_symbol _ _ _ (decodeMap_encodeChar_ne _), if_pos (by simp)]
  simp only [decodeMap_encodeChar_nat, List.nil_append, List.cons_append]
  rw [quantum3]
  rfl

/-- Decoding what `EncodeToString` produces gives the bytes back. -/
theorem DecodeString_EncodeToString (x : Bytes) :
    DecodeString (EncodeToString x) = some x := by
  unfold DecodeString
  induction x using EncodeToString.induct with
  | case1 a b c rest ih =>
    simp only [EncodeToString]
    rw [decode_quantum, ih]
    rfl
  | case2 a b =>
    simp only [EncodeToString]
    rw [decode_symbol _ _ _ (decodeMap_encodeChar_ne _), if_neg (by simp),
      decode_symbol _ _ _ (decodeMap_encodeChar_ne _), if_neg (by simp),
      decode_symbol _ _ _ (decodeMap_encodeChar_ne _), if_neg (by simp),
      decode_pad3 _ _ (by simp)]
    simp only [decodeMap_encodeChar_nat, List.nil_append, List.cons_append]
    simp [skipNewlines, quantum2]
  | case3 a =>
    simp only [EncodeToString]
    rw [decode_symbol _ _ _ (decodeMap_encodeChar_ne _), if_neg (by simp),
      decode_symbol _ _ _ (decodeMap_encodeChar_ne _), if_neg (by simp),
      decode_pad2 _ _ (by simp)]
    simp only [decodeMap_encodeChar_nat, List.nil_append, List.cons_append]
    simp [skipNewlines, quantum1]
  | case4 => simp [EncodeToString, decode]

theorem isSome_ite (p : Prop) [Decidable p] (x : Bytes) :
    (if p then some x else none).isSome = decide p := by
  by_cases h : p <;> simp [h]

set_option maxRecDepth 100000 in
theorem decodeMap_ne_iff : ∀ c : Byte, decodeMap c ≠ 0xff ↔ inAlphabet c = true := by
  decide

theorem skipNewlines_eq (s : Bytes) (h : ∀ x ∈ s, x ≠ lf ∧ x ≠ cr) : skipNewlines s = s := by
  cases s with
  | nil => rfl
  | cons c s =>
    have := h c (List.mem_cons_self _ _)
    simp [skipNewlines, this.1, this.2]

/-- On text without line breaks the decoder succeeds exactly on the language
`validFrom`, from any position in a quantum. -/
theorem decode_isSome (s : Bytes) (dbuf : List Nat) (h : ∀ x ∈ s, x ≠ lf ∧ x ≠ cr)
    (hj : dbuf.length ≤ 3) : (decode s dbuf).isSome = validFrom dbuf.length s := by
  induction s generalizing dbuf with
  | nil =>
    by_cases h0 : dbuf.length = 0 <;> simp [decode, validFrom, h0]
  | cons c s ih =>
    have hc := h c (List.mem_cons_self _ _)
    have hs : ∀ x ∈ s, x ≠ lf ∧ x ≠ cr := fun x hx => h x (List.mem_cons_of_mem _ hx)
    by_cases ha : inAlphabet c = true
    · have hd := (decodeMap_ne_iff c).2 ha
      by_cases h3 : dbuf.length = 3
      · simp [decode, validFrom, ha, hd, h3, ih [] hs (by simp)]
      · have := ih (dbuf ++ [decodeMap c]) hs (by simp; omega)
        simp [decode, validFrom, ha, hd, h3, this]
    · have hd : decodeMap c = 0xff := by
        by_contra hne
        exact ha ((decodeMap_ne_iff c).1 hne)
      by_cases hp : c = padChar
      · subst hp
        rcases Nat.lt_or_ge dbuf.length 2 with h2 | h2
        · have e2 : ¬ dbuf.length = 2 := by omega
          have e3 : ¬ dbuf.length = 3 := by omega
          simp [decode, validFrom, ha, hd, padChar_not_newline, h2, e2, e3]
        · by_cases e2 : dbuf.length = 2
          · cases s with
            | nil => simp [decode, validFrom, ha, hd, padChar_not_newline, e2, skipNewlines]
            | cons c2 s2 =>
              have hc2 := hs c2 (List.mem_cons_self _ _)
              have hs2 : ∀ x ∈ s2, x ≠ lf ∧ x ≠ cr :=
                fun x hx => hs x (List.mem_cons_of_mem _ hx)
              have hk := skipNewlines_eq s2 hs2
              by_cases hp2 : c2 = padChar <;>
                simp [decode, validFrom, ha, hd, padChar_not_newline, e2, skipNewlines,
                  hc2.1, hc2.2, hp2, hk, isSome_ite]
          · have e3 : dbuf.length = 3 := by omega
            have hk := skipNewlines_eq s hs
            simp [decode, validFrom, ha, hd, padChar_not_newline, e3, hk, isSome_ite]
      · simp [decode, validFrom, ha, hd, hc.1, hc.2, hp]

theorem validFrom_nil : validFrom 0 [] = true := rfl

theorem inAlphabet_padChar : inAlphabet padChar = false := by decide

/-- Read from the start of a group, `validFrom` is the grammar `validStd`. -/
theorem validFrom_zero (s : Bytes) : validFrom 0 s = validStd s := by
  induction s using validStd.induct with
  | case1 => rfl
  | case2 a b c d rest ih =>
    simp only [validFrom, validStd]
    by_cases ha : inAlphabet a = true <;> by_cases hb : inAlphabet b = true <;>
      by_cases hc : inAlphabet c = true <;> by_cases hd : inAlphabet d = true <;>
      by_cases h1 : d = padChar <;> by_cases h2 : rest = [] <;> by_cases h3 : c = padChar <;>
      simp [ha, hb, hc, hd, ih, h1, h2, h3, validStd, validFrom_nil, inAlphabet_padChar]
  | case3 s h1 h2 =>
    rcases s with _ | ⟨a, _ | ⟨b, _ | ⟨c, _ | ⟨d, rest⟩⟩⟩⟩
    · exact absurd rfl h1
    · by_cases ha : inAlphabet a = true <;> simp [validFrom, validStd, ha]
    · by_cases ha : inAlphabet a = true <;> by_cases hb : inAlphabet b = true <;>
        simp [validFrom, validStd, ha, hb]
    · by_cases ha : inAlphabet a = true <;> by_cases hb : inAlphabet b = true <;>
        by_cases hc : inAlphabet c = true <;> simp [validFrom, validStd, ha, hb, hc]
    · exact absurd rfl (h2 a b c d rest)

/-- Go's decoder accepts a text without line breaks exactly when it is standard
base64. -/
theorem DecodeString_isSome (s : Bytes) (h : ∀ x ∈ s, x ≠ lf ∧ x ≠ cr) :
    (DecodeString s).isSome = validStd s := by
  unfold DecodeString
  rw [decode_isSome s [] h (by simp)]
  exact validFrom_zero s

end base64

/-! ### parseBasicAuth and basicAuth -/

theorem IndexByte_ge (s : Bytes) (c : Byte) : -1 ≤ IndexByte s c := by
  induction s with
  | nil => simp [IndexByte]
  | cons b s ih =>
    simp only [IndexByte]
    split
    · omega
    · split <;> omega

theorem IndexByte_neg_iff (s : Bytes) (c : Byte) : IndexByte s c < 0 ↔ c ∉ s := by
  induction s with
  | nil => simp [IndexByte]
  | cons b s ih =>
    have := IndexByte_ge s c
    simp only [IndexByte]
    by_cases hb : b = c
    · simp [hb]
    · have hcb : ¬ c = b := fun h => hb h.symm
      simp only [hb, if_false, List.mem_cons, hcb, false_or]
      rw [← ih]
      split <;> omega

theorem IndexByte_append (u p : Bytes) (c : Byte) (h : c ∉ u) :
    IndexByte (u ++ c :: p) c = u.length := by
  induction u with
  | nil => simp [IndexByte]
  | cons b u ih =>
    have hb : ¬ b = c := fun e => h (by simp [e])
    have hu : c ∉ u := fun e => h (List.mem_cons_of_mem _ e)
    have e := ih hu
    rw [List.cons_append]
    simp only [IndexByte, hb, if_false, e, List.length_cons]
    split
    · omega
    · push_cast; ring

theorem IndexByte_split (s : Bytes) (c : Byte) (h : 0 ≤ IndexByte s c) :
    s = s.take (IndexByte s c).toNat ++ c :: s.drop ((IndexByte s c).toNat + 1) ∧
      c ∉ s.take (IndexByte s c).toNat := by
  induction s with
  | nil => simp [IndexByte] at h
  | cons b s ih =>
    simp only [IndexByte] at h ⊢
    by_cases hb : b = c
    · simp [hb]
    · simp only [hb, if_false] at h ⊢
      by_cases hn : IndexByte s c < 0
      · simp [hn] at h
      · have h0 : 0 ≤ IndexByte s c := by omega
        obtain ⟨e1, e2⟩ := ih h0
        simp only [hn, if_false]
        have ht : (IndexByte s c + 1).toNat = (IndexByte s c).toNat + 1 := by omega
        rw [ht]
        simp only [List.take_succ_cons, List.drop_succ_cons, List.cons_append, List.mem_cons,
          not_or]
        exact ⟨by rw [← e1], fun e => hb e.symm, e2⟩

theorem HasPrefix_iff (s pre : Bytes) : HasPrefix s pre = true ↔ ∃ b, s = pre ++ b := by
  unfold HasPrefix
  simp only [Bool.and_eq_true, decide_eq_true_eq]
  constructor
  · rintro ⟨_, h2⟩
    exact ⟨s.drop pre.length, by
      conv_lhs => rw [← List.take_append_drop pre.length s, h2]⟩
  · rintro ⟨b, rfl⟩
    simp

theorem basicPrefix : BasicAuthName ++ ascii " " = ascii "Basic " := by decide

/-- The function `parseBasicAuth` succeeds exactly on `"Basic "` followed by text that decodes to
`u ++ ":" ++ p` with no colon in `u`. -/
theorem parseBasicAuth_ok (auth u p : Bytes) :
    appServer.parseBasicAuth auth = (u, p, true) ↔
      ∃ b, auth = ascii "Basic " ++ b ∧ base64.DecodeString b = some (u ++ colon :: p) ∧
        colon ∉ u := by
  unfold appServer.parseBasicAuth
  rw [basicPrefix]
  by_cases hp : HasPrefix auth (ascii "Basic ") = true
  · obtain ⟨b, rfl⟩ := (HasPrefix_iff _ _).1 hp
    simp only [hp, Bool.not_true, Bool.false_eq_true, if_false, List.drop_left,
      List.append_cancel_left_eq, exists_eq_left']
    cases hd : base64.DecodeString b with
    | none => simp
    | some cs =>
      simp only [Option.some.injEq]
      by_cases hn : IndexByte cs colon < 0
      · have hc := (IndexByte_neg_iff cs colon).1 hn
        simp only [hn, if_true, Prod.mk.injEq, Bool.false_eq_true, and_false, false_iff]
        rintro ⟨rfl, _⟩
        exact hc (by simp)
      · simp only [hn, if_false, Prod.mk.injEq, and_true]
        obtain ⟨e1, e2⟩ := IndexByte_split cs colon (by omega)
        constructor
        · rintro ⟨rfl, rfl⟩
          exact ⟨e1, e2⟩
        · rintro ⟨rfl, hu⟩
          rw [IndexByte_append u p colon hu]
          simp
  · simp only [hp, Bool.not_false, if_true, Prod.mk.injEq, Bool.false_eq_true, and_false,
      false_iff]
    rintro ⟨b, rfl, _⟩
    exact hp ((HasPrefix_iff _ _).2 ⟨b, rfl⟩)

theorem parseBasicAuth_cases (auth : Bytes) :
    appServer.parseBasicAuth auth = ([], [], false) ∨
      ∃ u p, appServer.parseBasicAuth auth = (u, p, true) := by
  unfold appServer.parseBasicAuth
  simp only []
  split
  · exact Or.inl rfl
  · split
    · exact Or.inl rfl
    · split
      · exact Or.inl rfl
      · exact Or.inr ⟨_, _, rfl⟩

/-- The function `basicAuth` returns true exactly when `parseBasicAuth` succeeds
and both digests are the stored ones. -/
theorem basicAuth_true_iff (config : configuration) (auth : Bytes) :
    appServer.basicAuth config auth = true ↔
      ∃ u p, appServer.parseBasicAuth auth = (u, p, true) ∧
        sha256.Sum256 u = config.auth.userHash ∧ sha256.Sum256 p = config.auth.passHash := by
  unfold appServer.basicAuth
  rcases parseBasicAuth_cases auth with h | ⟨u, p, h⟩
  · rw [h]
    simp
  · rw [h]
    simp only [Bool.and_eq_true, decide_eq_true_eq, ConstantTimeCompare_eq_one,
      Bool.if_true_right, Bool.or_false, Prod.mk.injEq, and_true]
    constructor
    · intro h1
      have h2 : config.auth.userHash = sha256.Sum256 u ∧
          config.auth.passHash = sha256.Sum256 p := by
        by_contra hne
        rw [if_neg hne] at h1
        cases h1
      exact ⟨u, p, ⟨rfl, rfl⟩, h2.1.symm, h2.2.symm⟩
    · rintro ⟨u1, p1, ⟨rfl, rfl⟩, h1, h2⟩
      rw [if_pos ⟨h1.symm, h2.symm⟩]

/-! ### time.ParseDuration -/

theorem digitsValue_ge (ds : Bytes) (x : Nat) : x ≤ digitsValue x ds := by
  induction ds generalizing x with
  | nil => simp [digitsValue]
  | cons c ds ih =>
    have := ih (x * 10 + (c.val - 48))
    simp only [digitsValue, List.foldl_cons] at this ⊢
    omega

theorem isDigit_digit (d : Nat) (h : d < 10) : isDigit (digit d) = true ∧ (digit d).val - 48 = d := by
  have e : (digit d).val = 48 + d := by
    simp only [digit, Fin.ofNat, Nat.succ_eq_add_one]
    omega
  simp only [isDigit, e, Bool.and_eq_true, decide_eq_true_eq]
  omega

/-- With enough fuel `natDigits` puts in front of `acc` a non-empty string of
digits that denotes `n`. -/
theorem natDigits_spec (fuel n : Nat) (acc : Bytes) (h : n ≤ fuel) :
    ∃ ds : Bytes, natDigits fuel n acc = ds ++ acc ∧ (∀ c ∈ ds, isDigit c = true) ∧
      digitsValue 0 ds = n ∧ ds ≠ [] := by
  induction fuel generalizing n acc with
  | zero =>
    have h0 : n = 0 := by omega
    subst h0
    refine ⟨[digit 0], rfl, ?_, ?_, by simp⟩
    · intro c hc
      rw [List.mem_singleton] at hc
      rw [hc]
      exact (isDigit_digit 0 (by decide)).1
    · simp [digitsValue, (isDigit_digit 0 (by decide)).2]
  | succ fuel ih =>
    simp only [natDigits]
    by_cases h10 : n < 10
    · rw [if_pos h10]
      refine ⟨[digit n], rfl, ?_, ?_, by simp⟩
      · intro c hc
        rw [List.mem_singleton] at hc
        rw [hc]
        exact (isDigit_digit n h10).1
      · simp [digitsValue, (isDigit_digit n h10).2]
    · rw [if_neg h10]
      obtain ⟨ds, e1, e2, e3, e4⟩ := ih (n / 10) (digit (n % 10) :: acc) (by omega)
      have hm : n % 10 < 10 := Nat.mod_lt _ (by decide)
      refine ⟨ds ++ [digit (n % 10)], by rw [e1]; simp, ?_, ?_, by simp⟩
      · intro c hc
        rcases List.mem_append.1 hc with hc | hc
        · exact e2 c hc
        · rw [List.mem_singleton] at hc
          rw [hc]
          exact (isDigit_digit _ hm).1
      · unfold digitsValue at e3 ⊢
        rw [List.foldl_append, e3]
        simp only [List.foldl_cons, List.foldl_nil, (isDigit_digit _ hm).2]
        omega

/-- On digits followed by a non-digit, `leadingInt` returns the number they
denote and the rest, or fails when the number exceeds `1 << 63`. -/
theorem leadingInt_digits (ds rest : Bytes) (x : Nat) (hd : ∀ c ∈ ds, isDigit c = true)
    (hr : ∀ c ∈ rest.head?, isDigit c = false) (hx : x ≤ 2 ^ 63) :
    time.leadingInt (ds ++ rest) x =
      if digitsValue x ds ≤ 2 ^ 63 then some (digitsValue x ds, rest) else none := by
  induction ds generalizing x with
  | nil =>
    simp only [List.nil_append, digitsValue, List.foldl_nil, if_pos hx]
    cases rest with
    | nil => simp only [time.leadingInt]
    | cons c s =>
      have := hr c (by simp)
      simp [time.leadingInt, this]
  | cons c ds ih =>
    have hc : isDigit c = true := hd c (List.mem_cons_self _ _)
    have hds : ∀ c ∈ ds, isDigit c = true := fun c h => hd c (List.mem_cons_of_mem _ h)
    have hge := digitsValue_ge ds (x * 10 + (c.val - 48))
    simp only [List.cons_append, time.leadingInt, hc, Bool.not_true, Bool.false_eq_true,
      if_false]
    have hv : digitsValue x (c :: ds) = digitsValue (x * 10 + (c.val - 48)) ds := rfl
    rw [hv]
    by_cases h1 : x > 2 ^ 63 / 10
    · rw [if_pos h1, if_neg (by omega)]
    · rw [if_neg h1]
      by_cases h2 : x * 10 + (c.val - 48) > 2 ^ 63
      · simp only [h2, if_true]
        rw [if_neg (by omega)]
      · simp only [h2, if_false]
        exact ih _ hds (by omega)

theorem unitMap_s : time.unitMap [115] = some 1000000000 := by rfl

theorem parseLoop_seconds (orig : Bytes) (fuel : Nat) (ds : Bytes)
    (hd : ∀ c ∈ ds, isDigit c = true) (hne : ds ≠ []) :
    time.parseLoop orig (fuel + 1) (ds ++ [115]) 0 =
      if digitsValue 0 ds ≤ 9223372036 then .ok (digitsValue 0 ds * 1000000000)
      else .error (time.invalidDuration orig) := by
  have hr : ∀ c ∈ ([115] : Bytes).head?, isDigit c = false := by
    intro c hc
    simp only [List.head?_cons, Option.mem_def, Option.some.injEq] at hc
    subst hc
    rfl
  have hl := leadingInt_digits ds [115] 0 hd hr (Nat.zero_le _)
  cases ds with
  | nil => exact absurd rfl hne
  | cons c t =>
    have hc : isDigit c = true := hd c (List.mem_cons_self _ _)
    have he : time.endsUnit c = true := by simp [time.endsUnit, hc]
    rw [List.cons_append] at hl ⊢
    simp only [time.parseLoop, he, Bool.not_true, Bool.false_eq_true, if_false, hl]
    by_cases h63 : digitsValue 0 (c :: t) ≤ 2 ^ 63
    · have h46 : ¬ ((115 : Byte) = 46) := by decide
      have htw : List.takeWhile (fun b => !time.endsUnit b) ([115] : Bytes) = [115] := by rfl
      have hdw : List.dropWhile (fun b => !time.endsUnit b) ([115] : Bytes) = [] := by rfl
      have hlen : ((c :: (t ++ [115])).length != ([115] : Bytes).length) = true := by simp
      simp only [h63, if_true, h46, if_false, hlen, htw, hdw, unitMap_s, Bool.not_true,
        Bool.false_and, Bool.false_eq_true, List.cons_ne_nil, gt_iff_lt, Nat.lt_irrefl,
        false_and]
      generalize digitsValue 0 (c :: t) = v
      have hnil : ∀ d, time.parseLoop orig fuel [] d = .ok d := by
        intro d
        cases fuel <;> rfl
      by_cases hv : v ≤ 9223372036
      · have e : (0 + v * 1000000000) % 2 ^ 64 = v * 1000000000 := by omega
        rw [if_neg (by omega), e, if_neg (by omega), if_pos hv, hnil]
      · rw [if_pos (by omega), if_neg hv]
    · simp only [h63, if_false]
      rw [if_neg (by omega)]

theorem Itoa_nonneg (n : Int) (h : 0 ≤ n) :
    ∃ ds : Bytes, Itoa n = ds ∧ (∀ c ∈ ds, isDigit c = true) ∧
      digitsValue 0 ds = n.toNat ∧ ds ≠ [] := by
  obtain ⟨ds, e1, e2, e3, e4⟩ := natDigits_spec n.toNat n.toNat [] (Nat.le_refl _)
  refine ⟨ds, ?_, e2, e3, e4⟩
  unfold Itoa
  rw [if_neg (by omega), e1, List.append_nil]

/-- Go `time.ParseDuration` on the text `fmt.Sprintf("%vs", n)` of a non-negative
`n`: `n` seconds in nanoseconds when `n ≤ 9223372036`, an error beyond. -/
theorem ParseDuration_seconds (n : Int) (h : 0 ≤ n) :
    time.ParseDuration (Itoa n ++ ascii "s") =
      if n ≤ 9223372036 then .ok (n * 1000000000)
      else .error (time.invalidDuration (Itoa n ++ ascii "s")) := by
  obtain ⟨ds, e1, e2, e3, e4⟩ := Itoa_nonneg n h
  rw [e1]
  have hs : ascii "s" = [115] := by rfl
  rw [hs]
  cases ds with
  | nil => exact absurd rfl e4
  | cons c t =>
    have hc : isDigit c = true := e2 c (List.mem_cons_self _ _)
    have h45 : ¬ c = 45 := by
      intro e
      rw [e] at hc
      cases hc
    have h43 : ¬ c = 43 := by
      intro e
      rw [e] at hc
      cases hc
    have hloop := parseLoop_seconds (c :: t ++ [115]) (t ++ [115]).length (c :: t) e2 e4
    have h0 : ascii "0" = [48] := by rfl
    have hlen : (c :: (t ++ [115])).length = (t ++ [115]).length + 1 := rfl
    unfold time.ParseDuration
    rw [List.cons_append] at hloop ⊢
    simp only [List.head?_cons, Option.some.injEq, h45, h43, or_self, if_false, decide_False,
      h0, List.cons.injEq, List.append_eq_nil, List.cons_ne_nil, and_false, hlen, hloop,
      Bool.false_eq_true]
    rw [e3]
    by_cases hn : n ≤ 9223372036
    · have h1 : n.toNat ≤ 9223372036 := by omega
      have h2 : ¬ n.toNat * 1000000000 > 2 ^ 63 - 1 := by omega
      simp only [h1, hn, if_true, h2, if_false]
      congr 1
      push_cast
      rw [Int.toNat_of_nonneg h]
    · have h1 : ¬ n.toNat ≤ 9223372036 := by omega
      simp only [h1, hn, if_false]

/-! ### configuration.init -/

/-- A timeout block of `init` in closed form. -/
theorem initTimeout_eq (name : Bytes) (n : Int) :
    initTimeout name n =
      if n < 0 then errorf (name ++ ascii " cannot be smaller than 0")
      else if n ≤ maxSeconds then .ok (n * 1000000000)
      else errorf (name ++ ascii ": " ++ time.invalidDuration (Itoa n ++ ascii "s")) := by
  unfold initTimeout
  by_cases h : n < 0
  · rw [if_pos h, if_pos h]
  · rw [if_neg h, if_neg h, ParseDuration_seconds n (by omega)]
    unfold maxSeconds
    by_cases h2 : n ≤ 9223372036
    · rw [if_pos h2, if_pos h2]
    · rw [if_neg h2, if_neg h2]

theorem initHTTP_cases (fs : FileSystem) (c : configuration) :
    (holds fs c httpPortUnset ∧ initHTTP c = errorf (message c httpPortUnset)) ∨
    (¬ holds fs c httpPortUnset ∧ holds fs c httpPortRange ∧
      initHTTP c = errorf (message c httpPortRange)) ∨
    (¬ holds fs c httpPortUnset ∧ ¬ holds fs c httpPortRange ∧
      initHTTP c = .ok (afterHTTP c)) := by
  rcases c with ⟨host, ⟨en, port, addr⟩, hs, au, tm, lg, q⟩
  simp only [holds, initHTTP, message, text, detail, afterHTTP, validated]
  cases en
  · simp
  · by_cases h0 : port = 0
    · simp [h0]
    · by_cases hr : port < 0 ∨ port > 65535
      · simp [h0, hr]
      · simp [h0, hr]

theorem initAuth_cases (fs : FileSystem) (c : configuration) :
    (holds fs c usernameEmpty ∧ initAuth c = errorf (message c usernameEmpty)) ∨
    (¬ holds fs c usernameEmpty ∧ holds fs c passwordEmpty ∧
      initAuth c = errorf (message c passwordEmpty)) ∨
    (¬ holds fs c usernameEmpty ∧ ¬ holds fs c passwordEmpty ∧
      initAuth c = .ok (afterAuth c)) := by
  rcases c with ⟨host, ht, hs, ⟨en, user, pass, uh, ph⟩, tm, lg, q⟩
  simp only [holds, initAuth, message, text, detail, afterAuth, validated]
  cases en
  · simp
  · by_cases hu : user = []
    · simp [hu]
    · by_cases hp : pass = []
      · simp [hu, hp, List.length_pos]
      · simp [hu, hp, List.length_pos]

theorem initHTTPS_cases (fs : FileSystem) (c : configuration) :
    (holds fs c httpsPortUnset ∧ initHTTPS fs c = errorf (message c httpsPortUnset)) ∨
    (¬ holds fs c httpsPortUnset ∧ holds fs c httpsPortRange ∧
      initHTTPS fs c = errorf (message c httpsPortRange)) ∨
    (¬ holds fs c httpsPortUnset ∧ ¬ holds fs c httpsPortRange ∧ holds fs c certEmpty ∧
      initHTTPS fs c = errorf (message c certEmpty)) ∨
    (¬ holds fs c httpsPortUnset ∧ ¬ holds fs c httpsPortRange ∧ ¬ holds fs c certEmpty ∧
      holds fs c certMissing ∧ initHTTPS fs c = errorf (message c certMissing)) ∨
    (c.https.enabled = true ∧ fs c.https.cert = .otherError ∧ initHTTPS fs c = .error .crash) ∨
    (¬ holds fs c httpsPortUnset ∧ ¬ holds fs c httpsPortRange ∧ ¬ holds fs c certEmpty ∧
      ¬ holds fs c certMissing ∧ holds fs c keyEmpty ∧
      initHTTPS fs c = errorf (message c keyEmpty)) ∨
    (¬ holds fs c httpsPortUnset ∧ ¬ holds fs c httpsPortRange ∧ ¬ holds fs c certEmpty ∧
      ¬ holds fs c certMissing ∧ ¬ holds fs c keyEmpty ∧ holds fs c keyMissing ∧
      initHTTPS fs c = errorf (message c keyMissing)) ∨
    (c.https.enabled = true ∧ fs c.https.key = .otherError ∧ initHTTPS fs c = .error .crash) ∨
    (¬ holds fs c httpsPortUnset ∧ ¬ holds fs c httpsPortRange ∧ ¬ holds fs c certEmpty ∧
      ¬ holds fs c certMissing ∧ ¬ holds fs c keyEmpty ∧ ¬ holds fs c keyMissing ∧
      (c.https.enabled = true → fs c.https.cert = .file ∧ fs c.https.key = .file) ∧
      initHTTPS fs c = .ok (afterHTTPS c)) := by
  rcases c with ⟨host, ht, ⟨en, port, addr, cert, key⟩, au, tm, lg, q⟩
  simp only [holds, initHTTPS, message, text, detail, afterHTTPS, validated, fileExists]
  cases en
  · simp
  · by_cases h0 : port = 0
    · simp [h0]
    · by_cases hr : port < 0 ∨ port > 65535
      · simp [h0, hr]
      · by_cases hc : cert = []
        · simp [h0, hr, hc]
        · cases hfc : fs cert
          · simp [h0, hr, hc, hfc, errorf]
          · simp [h0, hr, hc, hfc]
          · simp [h0, hr, hc, hfc, errorf]
          · by_cases hk : key = []
            · simp [h0, hr, hc, hfc, hk]
            · cases hfk : fs key
              · simp [h0, hr, hc, hfc, hk, hfk, errorf]
              · simp [h0, hr, hc, hfc, hk, hfk]
              · simp [h0, hr, hc, hfc, hk, hfk, errorf]
              · simp [h0, hr, hc, hfc, hk, hfk]

theorem text_read_negative :
    ascii "timeout-read" ++ ascii " cannot be smaller than 0" =
      ascii "timeout-read cannot be smaller than 0" := by rfl

theorem text_write_negative :
    ascii "timeout-write" ++ ascii " cannot be smaller than 0" =
      ascii "timeout-write cannot be smaller than 0" := by rfl

theorem text_dial_negative :
    ascii "timeout-dial" ++ ascii " cannot be smaller than 0" =
      ascii "timeout-dial cannot be smaller than 0" := by rfl

theorem text_read_large (x : Bytes) :
    ascii "timeout-read" ++ (ascii ": " ++ x) = ascii "timeout-read: " ++ x := by rfl

theorem text_write_large (x : Bytes) :
    ascii "timeout-write" ++ (ascii ": " ++ x) = ascii "timeout-write: " ++ x := by rfl

theorem text_dial_large (x : Bytes) :
    ascii "timeout-dial" ++ (ascii ": " ++ x) = ascii "timeout-dial: " ++ x := by rfl

theorem initTimeouts_cases (fs : FileSystem) (c : configuration) :
    (holds fs c readNegative ∧ initTimeouts c = errorf (message c readNegative)) ∨
    (¬ holds fs c readNegative ∧ holds fs c readTooLarge ∧
      initTimeouts c = errorf (message c readTooLarge)) ∨
    (¬ holds fs c readNegative ∧ ¬ holds fs c readTooLarge ∧ holds fs c writeNegative ∧
      initTimeouts c = errorf (message c writeNegative)) ∨
    (¬ holds fs c readNegative ∧ ¬ holds fs c readTooLarge ∧ ¬ holds fs c writeNegative ∧
      holds fs c writeTooLarge ∧ initTimeouts c = errorf (message c writeTooLarge)) ∨
    (¬ holds fs c readNegative ∧ ¬ holds fs c readTooLarge ∧ ¬ holds fs c writeNegative ∧
      ¬ holds fs c writeTooLarge ∧ holds fs c dialNegative ∧
      initTimeouts c = errorf (message c dialNegative)) ∨
    (¬ holds fs c readNegative ∧ ¬ holds fs c readTooLarge ∧ ¬ holds fs c writeNegative ∧
      ¬ holds fs c writeTooLarge ∧ ¬ holds fs c dialNegative ∧ holds fs c dialTooLarge ∧
      initTimeouts c = errorf (message c dialTooLarge)) ∨
    (¬ holds fs c readNegative ∧ ¬ holds fs c readTooLarge ∧ ¬ holds fs c writeNegative ∧
      ¬ holds fs c writeTooLarge ∧ ¬ holds fs c dialNegative ∧ ¬ holds fs c dialTooLarge ∧
      initTimeouts c = .ok (afterTimeouts c)) := by
  rcases c with ⟨host, ht, hs, au, ⟨r, w, d, rd, wd, dd⟩, lg, q⟩
  simp only [holds, initTimeouts, initTimeout_eq, message, text, detail, afterTimeouts, validated]
  by_cases h1 : r < 0
  · simp [h1, errorf, text_read_negative]
  · by_cases h2 : r ≤ maxSeconds
    · have h2' : ¬ maxSeconds < r := not_lt.2 h2
      by_cases h3 : w < 0
      · simp [h1, h2, h2', h3, errorf, text_write_negative]
      · by_cases h4 : w ≤ maxSeconds
        · have h4' : ¬ maxSeconds < w := not_lt.2 h4
          by_cases h5 : d < 0
          · simp [h1, h2, h2', h3, h4, h4', h5, errorf, text_dial_negative]
          · by_cases h6 : d ≤ maxSeconds
            · have h6' : ¬ maxSeconds < d := not_lt.2 h6
              simp [h1, h2, h2', h3, h4, h4', h5, h6, h6', errorf]
            · have h6' : maxSeconds < d := not_le.1 h6
              simp [h1, h2, h2', h3, h4, h4', h5, h6, h6', errorf, text_dial_large]
        · have h4' : maxSeconds < w := not_le.1 h4
          simp [h1, h2, h2', h3, h4, h4', errorf, text_write_large]
    · have h2' : maxSeconds < r := not_le.1 h2
      simp [h1, h2, h2', errorf, text_read_large]

theorem holds_afterHTTP (fs : FileSystem) (c : configuration) (k : Condition) :
    holds fs (afterHTTP c) k ↔ holds fs c k := by
  cases k <;> simp [holds, afterHTTP, validated]

theorem holds_afterHTTPS (fs : FileSystem) (c : configuration) (k : Condition) :
    holds fs (afterHTTPS c) k ↔ holds fs c k := by
  cases k <;> simp [holds, afterHTTPS, validated]

theorem holds_afterAuth (fs : FileSystem) (c : configuration) (k : Condition) :
    holds fs (afterAuth c) k ↔ holds fs c k := by
  cases k <;> simp [holds, afterAuth, validated]

theorem message_afterHTTP (c : configuration) (k : Condition) :
    message (afterHTTP c) k = message c k := by
  cases k <;> simp [message, text, detail, afterHTTP, validated]

theorem message_afterHTTPS (c : configuration) (k : Condition) :
    message (afterHTTPS c) k = message c k := by
  cases k <;> simp [message, text, detail, afterHTTPS, validated]

theorem message_afterAuth (c : configuration) (k : Condition) :
    message (afterAuth c) k = message c k := by
  cases k <;> simp [message, text, detail, afterAuth, validated]

theorem after_all (c : configuration) :
    afterTimeouts (afterAuth (afterHTTPS (afterHTTP c))) = validated c := by
  rcases c with ⟨host, ⟨e1, p1, a1⟩, ⟨e2, p2, a2, cert, key⟩, ⟨e3, u, p, uh, ph⟩,
    ⟨r, w, d, rd, wd, dd⟩, lg, q⟩
  rfl

theorem init_noListener (fs : FileSystem) (c : configuration)
    (h : holds fs c noListener) : init fs c = errorf (message c noListener) := by
  simp only [holds] at h
  simp [init, h.1, h.2, message, text, detail]

theorem init_rest (fs : FileSystem) (c : configuration) (h : ¬ holds fs c noListener) :
    init fs c = ((initHTTP c).bind (initHTTPS fs)).bind fun c3 => (initAuth c3).bind initTimeouts := by
  simp only [holds] at h
  have h' : ¬ ((!c.http.enabled && !c.https.enabled) = true) := by
    simpa using h
  unfold init
  rw [if_neg h']
  cases initHTTP c with
  | error e => rfl
  | ok c1 =>
    cases h2 : initHTTPS fs c1 with
    | error e => simp [Except.bind, h2]
    | ok c2 =>
      cases h3 : initAuth c2 with
      | error e => simp [Except.bind, h2, h3]
      | ok c3 => simp [Except.bind, h2, h3]

theorem bind_ok (c : configuration) (f : configuration → Except Failure configuration) :
    (Except.ok c : Except Failure configuration).bind f = f c := rfl

/-- The three ways `init` ends: with the message of the first condition that
holds, in a panic of `fileExists`, or with the validated configuration when no
condition holds. -/
theorem init_cases (fs : FileSystem) (c : configuration) :
    (∃ k, firstFailure fs c order = some k ∧ init fs c = errorf (message c k)) ∨
    (init fs c = .error .crash ∧ ¬ valid fs c) ∨
    (firstFailure fs c order = none ∧ valid fs c ∧ init fs c = .ok (validated c)) := by
  by_cases h1 : holds fs c noListener
  · left
    exact ⟨noListener, by simp [firstFailure, order, h1], init_noListener fs c h1⟩
  rw [init_rest fs c h1]
  rcases initHTTP_cases fs c with ⟨a, e⟩ | ⟨a1, a2, e⟩ | ⟨h2, h3, e⟩
  · left
    exact ⟨httpPortUnset, by simp [firstFailure, order, h1, a], by rw [e]; rfl⟩
  · left
    exact ⟨httpPortRange, by simp [firstFailure, order, h1, a1, a2], by rw [e]; rfl⟩
  rw [e, bind_ok]
  rcases initHTTPS_cases fs (afterHTTP c) with ⟨a, e⟩ | ⟨a1, a2, e⟩ | ⟨a1, a2, a3, e⟩ |
    ⟨a1, a2, a3, a4, e⟩ | ⟨a1, a2, e⟩ | ⟨a1, a2, a3, a4, a5, e⟩ | ⟨a1, a2, a3, a4, a5, a6, e⟩ |
    ⟨a1, a2, e⟩ | ⟨h4, h5, h6, h7, h8, h9, hf, e⟩
  · simp only [holds_afterHTTP, message_afterHTTP] at a e
    left
    exact ⟨httpsPortUnset, by simp [firstFailure, order, h1, h2, h3, a], by rw [e]; rfl⟩
  · simp only [holds_afterHTTP, message_afterHTTP] at a1 a2 e
    left
    exact ⟨httpsPortRange, by simp [firstFailure, order, h1, h2, h3, a1, a2], by rw [e]; rfl⟩
  · simp only [holds_afterHTTP, message_afterHTTP] at a1 a2 a3 e
    left
    exact ⟨certEmpty, by simp [firstFailure, order, h1, h2, h3, a1, a2, a3], by rw [e]; rfl⟩
  · simp only [holds_afterHTTP, message_afterHTTP] at a1 a2 a3 a4 e
    left
    exact ⟨certMissing, by simp [firstFailure, order, h1, h2, h3, a1, a2, a3, a4],
      by rw [e]; rfl⟩
  · right; left
    refine ⟨by rw [e]; rfl, ?_⟩
    intro hv
    have := (hv.1.2.2.1 a1).2.2.2.1
    simp [afterHTTP] at a2
    rw [a2] at this
    cases this
  · simp only [holds_afterHTTP, message_afterHTTP] at a1 a2 a3 a4 a5 e
    left
    exact ⟨keyEmpty, by simp [firstFailure, order, h1, h2, h3, a1, a2, a3, a4, a5],
      by rw [e]; rfl⟩
  · simp only [holds_afterHTTP, message_afterHTTP] at a1 a2 a3 a4 a5 a6 e
    left
    exact ⟨keyMissing, by simp [firstFailure, order, h1, h2, h3, a1, a2, a3, a4, a5, a6],
      by rw [e]; rfl⟩
  · right; left
    refine ⟨by rw [e]; rfl, ?_⟩
    intro hv
    have := (hv.1.2.2.1 a1).2.2.2.2.2
    simp [afterHTTP] at a2
    rw [a2] at this
    cases this
  simp only [holds_afterHTTP] at h4 h5 h6 h7 h8 h9
  rw [e, bind_ok]
  have hf' : c.https.enabled = true → fs c.https.cert = .file ∧ fs c.https.key = .file := by
    simpa [afterHTTP] using hf
  rcases initAuth_cases fs (afterHTTPS (afterHTTP c)) with ⟨a, e⟩ | ⟨a1, a2, e⟩ | ⟨h10, h11, e⟩
  · simp only [holds_afterHTTP, holds_afterHTTPS, message_afterHTTP, message_afterHTTPS] at a e
    left
    exact ⟨usernameEmpty,
      by simp [firstFailure, order, h1, h2, h3, h4, h5, h6, h7, h8, h9, a], by rw [e]; rfl⟩
  · simp only [holds_afterHTTP, holds_afterHTTPS, message_afterHTTP, message_afterHTTPS]
      at a1 a2 e
    left
    exact ⟨passwordEmpty,
      by simp [firstFailure, order, h1, h2, h3, h4, h5, h6, h7, h8, h9, a1, a2],
      by rw [e]; rfl⟩
  simp only [holds_afterHTTP, holds_afterHTTPS] at h10 h11
  rw [e, bind_ok]
  rcases initTimeouts_cases fs (afterAuth (afterHTTPS (afterHTTP c))) with
    ⟨a, e⟩ | ⟨a1, a2, e⟩ | ⟨a1, a2, a3, e⟩ | ⟨a1, a2, a3, a4, e⟩ | ⟨a1, a2, a3, a4, a5, e⟩ |
    ⟨a1, a2, a3, a4, a5, a6, e⟩ | ⟨h12, h13, h14, h15, h16, h17, e⟩
  · simp only [holds_afterHTTP, holds_afterHTTPS, holds_afterAuth, message_afterHTTP,
      message_afterHTTPS, message_afterAuth] at a e
    left
    exact ⟨readNegative,
      by simp [firstFailure, order, h1, h2, h3, h4, h5, h6, h7, h8, h9, h10, h11, a], e⟩
  · simp only [holds_afterHTTP, holds_afterHTTPS, holds_afterAuth, message_afterHTTP,
      message_afterHTTPS, message_afterAuth] at a1 a2 e
    left
    exact ⟨readTooLarge,
      by simp [firstFailure, order, h1, h2, h3, h4, h5, h6, h7, h8, h9, h10, h11, a1, a2], e⟩
  · simp only [holds_afterHTTP, holds_afterHTTPS, holds_afterAuth, message_afterHTTP,
      message_afterHTTPS, message_afterAuth] at a1 a2 a3 e
    left
    exact ⟨writeNegative,
      by simp [firstFailure, order, h1, h2, h3, h4, h5, h6, h7, h8, h9, h10, h11, a1, a2, a3],
      e⟩
  · simp only [holds_afterHTTP, holds_afterHTTPS, holds_afterAuth, message_afterHTTP,
      message_afterHTTPS, message_afterAuth] at a1 a2 a3 a4 e
    left
    exact ⟨writeTooLarge,
      by simp [firstFailure, order, h1, h2, h3, h4, h5, h6, h7, h8, h9, h10, h11, a1, a2, a3,
        a4], e⟩
  · simp only [holds_afterHTTP, holds_afterHTTPS, holds_afterAuth, message_afterHTTP,
      message_afterHTTPS, message_afterAuth] at a1 a2 a3 a4 a5 e
    left
    exact ⟨dialNegative,
      by simp [firstFailure, order, h1, h2, h3, h4, h5, h6, h7, h8, h9, h10, h11, a1, a2, a3,
        a4, a5], e⟩
  · simp only [holds_afterHTTP, holds_afterHTTPS, holds_afterAuth, message_afterHTTP,
      message_afterHTTPS, message_afterAuth] at a1 a2 a3 a4 a5 a6 e
    left
    exact ⟨dialTooLarge,
      by simp [firstFailure, order, h1, h2, h3, h4, h5, h6, h7, h8, h9, h10, h11, a1, a2, a3,
        a4, a5, a6], e⟩
  simp only [holds_afterHTTP, holds_afterHTTPS, holds_afterAuth] at h12 h13 h14 h15 h16 h17
  right; right
  refine ⟨by simp [firstFailure, order, h1, h2, h3, h4, h5, h6, h7, h8, h9, h10, h11, h12,
    h13, h14, h15, h16, h17], ?_, by rw [e, after_all]⟩
  simp only [holds] at h1 h2 h3 h4 h5 h6 h7 h8 h9 h10 h11 h12 h13 h14 h15 h16 h17
  unfold valid validAsStated
  refine ⟨⟨?_, ?_, ?_, ?_, ?_, ?_, ?_⟩, ?_, ?_, ?_⟩
  · cases hE : c.http.enabled
    · cases hS : c.https.enabled
      · exact absurd ⟨hE, hS⟩ h1
      · exact Or.inr rfl
    · exact Or.inl rfl
  · intro he
    have e2 : ¬ c.http.port = 0 := fun e => h2 ⟨he, e⟩
    have e3 : ¬ (c.http.port < 0 ∨ c.http.port > 65535) := fun e => h3 ⟨he, e⟩
    omega
  · intro he
    have e4 : ¬ c.https.port = 0 := fun e => h4 ⟨he, e⟩
    have e5 : ¬ (c.https.port < 0 ∨ c.https.port > 65535) := fun e => h5 ⟨he, e⟩
    exact ⟨by omega, by omega, fun e => h6 ⟨he, e⟩, (hf' he).1, fun e => h8 ⟨he, e⟩,
      (hf' he).2⟩
  · intro he
    exact ⟨fun e => h10 ⟨he, e⟩, fun e => h11 ⟨he, e⟩⟩
  · omega
  · omega
  · omega
  · omega
  · omega
  · omega

theorem firstFailure_holds (fs : FileSystem) (c : configuration) (l : List Condition)
    (k : Condition) (h : firstFailure fs c l = some k) : holds fs c k ∧ k ∈ l := by
  unfold firstFailure at h
  exact ⟨by simpa using List.find?_some h, List.mem_of_find?_eq_some h⟩

theorem holds_not_valid (fs : FileSystem) (c : configuration) (k : Condition)
    (h : holds fs c k) : ¬ valid fs c := by
  rintro ⟨⟨v1, v2, v3, v4, v5, v6, v7⟩, v8, v9, v10⟩
  cases k <;> simp only [holds] at h
  · rcases v1 with v | v
    · rw [h.1] at v; cases v
    · rw [h.2] at v; cases v
  · have := v2 h.1; omega
  · have := v2 h.1; omega
  · have := v3 h.1; omega
  · have := v3 h.1; omega
  · exact (v3 h.1).2.2.1 h.2
  · have := (v3 h.1).2.2.2.1
    rcases h.2 with e | e <;> rw [e] at this <;> cases this
  · exact (v3 h.1).2.2.2.2.1 h.2
  · have := (v3 h.1).2.2.2.2.2
    rcases h.2 with e | e <;> rw [e] at this <;> cases this
  · exact (v4 h.1).1 h.2
  · exact (v4 h.1).2 h.2
  · omega
  · omega
  · omega
  · omega
  · omega
  · omega

/-- The function `init` returns success exactly on a valid configuration, and
then returns `validated c`. -/
theorem init_ok_iff (fs : FileSystem) (c c' : configuration) :
    init fs c = .ok c' ↔ valid fs c ∧ c' = validated c := by
  rcases init_cases fs c with ⟨k, hk, e⟩ | ⟨e, hn⟩ | ⟨_, hv, e⟩
  · rw [e]
    constructor
    · intro h
      cases h
    · rintro ⟨hv, _⟩
      exact absurd hv (holds_not_valid fs c k (firstFailure_holds fs c _ k hk).1)
  · rw [e]
    constructor
    · intro h
      cases h
    · rintro ⟨hv, _⟩
      exact absurd hv hn
  · rw [e]
    constructor
    · intro h
      injection h with h
      exact ⟨hv, h.symm⟩
    · rintro ⟨_, rfl⟩
      rfl

theorem differ_append (s t x y : Bytes) (h : differ s t = true) : s ++ x ≠ t ++ y := by
  induction s generalizing t with
  | nil => simp [differ] at h
  | cons a s ih =>
    cases t with
    | nil => simp [differ] at h
    | cons b t =>
      simp only [differ, Bool.or_eq_true, decide_eq_true_eq] at h
      intro e
      simp only [List.cons_append, List.cons.injEq] at e
      rcases h with h | h
      · exact h e.1
      · exact ih t h e.2

theorem text_differ (k1 k2 : Condition) (h : k1 ≠ k2) : differ (text k1) (text k2) = true := by
  cases k1 <;> cases k2 <;> first | exact absurd rfl h | rfl

/-- Two different conditions never have the same message. -/
theorem message_ne (c1 c2 : configuration) (k1 k2 : Condition) (h : k1 ≠ k2) :
    message c1 k1 ≠ message c2 k2 :=
  differ_append _ _ _ _ (text_differ k1 k2 h)

/-- The function `parseBasicAuth` splits the client's own header value back into
the user name and the password when the user name has no colon. -/
theorem parseBasicAuth_own (c : configuration)
    (hc : colon ∉ c.auth.username) :
    appServer.parseBasicAuth (ownCredentials c) = (c.auth.username, c.auth.password, true) := by
  rw [parseBasicAuth_ok]
  exact ⟨_, rfl, base64.DecodeString_EncodeToString _, hc⟩

theorem valid_minimalConfig (fs : FileSystem) : valid fs minimalConfig := by
  unfold valid validAsStated
  exact ⟨⟨Or.inl rfl, fun _ => ⟨by decide, by decide⟩, fun h => absurd h (by decide),
    fun h => absurd h (by decide), by decide, by decide, by decide⟩,
    by decide, by decide, by decide⟩

/-! ### The header map and the response writer -/

theorem values_of_not_mem (H : Header) (k : Bytes) (h : k ∉ H.map Prod.fst) :
    Header.values H k = [] := by
  induction H with
  | nil => rfl
  | cons kv H ih =>
    obtain ⟨k', vv⟩ := kv
    simp only [List.map_cons, List.mem_cons, not_or] at h
    have hne : ¬ k' = k := fun e => h.1 e.symm
    simp [Header.values, hne, ih h.2]

theorem values_append_last (H : Header) (k : Bytes) (acc : List Bytes)
    (h : k ∉ H.map Prod.fst) : Header.values (H ++ [(k, acc)]) k = acc := by
  induction H with
  | nil => simp [Header.values]
  | cons kv H ih =>
    obtain ⟨k', vv⟩ := kv
    simp only [List.map_cons, List.mem_cons, not_or] at h
    have hne : ¬ k' = k := fun e => h.1 e.symm
    have e := ih h.2
    rw [List.cons_append]
    simp only [Header.values, hne, if_false, e]

theorem store_of_not_mem (H : Header) (k : Bytes) (v : List Bytes)
    (h : k ∉ H.map Prod.fst) : Header.store H k v = H ++ [(k, v)] := by
  induction H with
  | nil => rfl
  | cons kv H ih =>
    obtain ⟨k', vv⟩ := kv
    simp only [List.map_cons, List.mem_cons, not_or] at h
    have hne : ¬ k' = k := fun e => h.1 e.symm
    simp [Header.store, hne, ih h.2]

theorem store_append_last (H : Header) (k : Bytes) (acc v : List Bytes)
    (h : k ∉ H.map Prod.fst) : Header.store (H ++ [(k, acc)]) k v = H ++ [(k, v)] := by
  induction H with
  | nil => simp [Header.store]
  | cons kv H ih =>
    obtain ⟨k', vv⟩ := kv
    simp only [List.map_cons, List.mem_cons, not_or] at h
    have hne : ¬ k' = k := fun e => h.1 e.symm
    have e := ih h.2
    rw [List.cons_append]
    simp only [Header.store, hne, if_false, e, List.cons_append]

theorem addValues_last (w : ResponseWriter) (H : Header) (k : Bytes) (acc vv : List Bytes)
    (hk : CanonicalHeaderKey k = k) (h : k ∉ H.map Prod.fst) :
    vv.foldl (fun w2 v => { w2 with header := w2.header.Add k v })
        { w with header := H ++ [(k, acc)] } =
      { w with header := H ++ [(k, acc ++ vv)] } := by
  simp only [Header.Add, hk]
  induction vv generalizing acc with
  | nil => simp
  | cons v vv ih =>
    simp only [List.foldl_cons, values_append_last H k acc h, store_append_last H k acc _ h]
    rw [ih (acc ++ [v])]
    simp

theorem addValues (w : ResponseWriter) (k : Bytes) (vv : List Bytes)
    (hk : CanonicalHeaderKey k = k) (h : k ∉ w.header.map Prod.fst) (hv : vv ≠ []) :
    vv.foldl (fun w2 v => { w2 with header := w2.header.Add k v }) w =
      { w with header := w.header ++ [(k, vv)] } := by
  cases vv with
  | nil => exact absurd rfl hv
  | cons v vv =>
    have e := addValues_last w w.header k [v] vv hk h
    simp only [Header.Add, hk] at e ⊢
    simp only [List.foldl_cons, values_of_not_mem _ k h, store_of_not_mem _ k _ h,
      List.nil_append]
    rw [e]
    simp

/-- Copying a well-formed header map whose names are new to the writer appends
its entries to the writer's map unchanged. -/
theorem copyHeaders_append (w : ResponseWriter) (h : Header)
    (hn : ((w.header ++ h).map Prod.fst).Nodup)
    (hc : ∀ kv ∈ h, CanonicalHeaderKey kv.1 = kv.1 ∧ kv.2 ≠ []) :
    copyHeaders w h = { w with header := w.header ++ h } := by
  unfold copyHeaders
  induction h generalizing w with
  | nil => simp
  | cons kv h ih =>
    obtain ⟨k, vv⟩ := kv
    have hkv := hc (k, vv) (List.mem_cons_self _ _)
    have hk : k ∉ w.header.map Prod.fst := by
      intro hm
      rw [List.map_append, List.map_cons] at hn
      exact (List.nodup_append.1 hn).2.2 hm (List.mem_cons_self _ _)
    simp only [List.foldl_cons]
    rw [addValues w k vv hkv.1 hk hkv.2, ih]
    · simp
    · simpa using hn
    · exact fun kv hm => hc kv (List.mem_cons_of_mem _ hm)

theorem WriteHeader_final (w : ResponseWriter) (code : Int) (hw : w.wroteHeader = false)
    (hc : finalStatus code) :
    w.WriteHeader code = some { w with wroteHeader := true, status := code, sent := w.header } := by
  unfold ResponseWriter.WriteHeader
  unfold finalStatus at hc
  rw [if_neg (by simp [hw]), if_neg (by omega), if_neg (by omega)]

/-! ## The claims -/

/-- C1: on a header value (no CR or LF), `basicAuth` returns true exactly when the
value is `"Basic "` followed by standard base64 text whose decoding is
`u ++ ":" ++ p` with no colon in `u` (the split at the first colon),
`SHA-256(u)` is the stored user digest and `SHA-256(p)` the stored password
digest; a missing prefix, malformed base64 and a decoding without a colon all
give false. -/
theorem basicAuth_iff (config : configuration) (h : Bytes)
    (hv : ∀ x ∈ h, x ≠ lf ∧ x ≠ cr) :
    (appServer.basicAuth config h = true ↔
      ∃ b u p, h = ascii "Basic " ++ b ∧ base64.validStd b = true ∧
        base64.DecodeString b = some (u ++ colon :: p) ∧ colon ∉ u ∧
        sha256.Sum256 u = config.auth.userHash ∧ sha256.Sum256 p = config.auth.passHash) ∧
    ((¬ ∃ b, h = ascii "Basic " ++ b) → appServer.basicAuth config h = false) ∧
    (∀ b, h = ascii "Basic " ++ b → base64.validStd b = false →
      appServer.basicAuth config h = false) ∧
    (∀ b cs, h = ascii "Basic " ++ b → base64.DecodeString b = some cs → colon ∉ cs →
      appServer.basicAuth config h = false) := by
  have key : appServer.basicAuth config h = true ↔
      ∃ b u p, h = ascii "Basic " ++ b ∧ base64.validStd b = true ∧
        base64.DecodeString b = some (u ++ colon :: p) ∧ colon ∉ u ∧
        sha256.Sum256 u = config.auth.userHash ∧ sha256.Sum256 p = config.auth.passHash := by
    rw [basicAuth_true_iff]
    constructor
    · rintro ⟨u, p, hp, h1, h2⟩
      obtain ⟨b, rfl, hd, hu⟩ := (parseBasicAuth_ok h u p).1 hp
      have hb : ∀ x ∈ b, x ≠ lf ∧ x ≠ cr := fun x hx => hv x (List.mem_append_right _ hx)
      have hs := base64.DecodeString_isSome b hb
      rw [hd] at hs
      exact ⟨b, u, p, rfl, hs.symm, hd, hu, h1, h2⟩
    · rintro ⟨b, u, p, rfl, _, hd, hu, h1, h2⟩
      exact ⟨u, p, (parseBasicAuth_ok _ u p).2 ⟨b, rfl, hd, hu⟩, h1, h2⟩
  refine ⟨key, ?_, ?_, ?_⟩
  · intro hn
    rw [← Bool.not_eq_true]
    intro ht
    obtain ⟨b, _, _, hb, _⟩ := key.1 ht
    exact hn ⟨b, hb⟩
  · rintro b rfl hb
    rw [← Bool.not_eq_true]
    intro ht
    obtain ⟨b', _, _, hb', hv', _⟩ := key.1 ht
    rw [List.append_cancel_left hb'] at hb
    rw [hb] at hv'
    cases hv'
  · rintro b cs rfl hd hc
    rw [← Bool.not_eq_true]
    intro ht
    obtain ⟨b', u, p, hb', _, hd', _⟩ := key.1 ht
    rw [← List.append_cancel_left hb', hd] at hd'
    injection hd' with hd'
    exact hc (by rw [hd']; simp)

set_option maxRecDepth 100000 in
/-- C1 at the header `Basic dTpw` and the digests of `u` and `p`: the header has
no line break, `basicAuth` accepts it, rejects it with the scheme in lower case
and rejects the empty header, and the equivalence holds there. -/
theorem basicAuth_iff_witness :
    (∀ x ∈ ascii "Basic dTpw", x ≠ lf ∧ x ≠ cr) ∧
    basicAuth userPassConfig.validated (ascii "Basic dTpw") = true ∧
    basicAuth userPassConfig.validated (ascii "basic dTpw") = false ∧
    basicAuth userPassConfig.validated [] = false ∧
    (basicAuth userPassConfig.validated (ascii "Basic dTpw") = true ↔
      ∃ b u p, ascii "Basic dTpw" = ascii "Basic " ++ b ∧ base64.validStd b = true ∧
        base64.DecodeString b = some (u ++ colon :: p) ∧ colon ∉ u ∧
        sha256.Sum256 u = userPassConfig.validated.auth.userHash ∧
        sha256.Sum256 p = userPassConfig.validated.auth.passHash) :=
  ⟨by decide, by decide, by decide, by decide,
    (basicAuth_iff userPassConfig.validated (ascii "Basic dTpw") (by decide)).1⟩

set_option maxRecDepth 100000 in
/-- C2 as stated fails: with authentication enabled and no
`Proxy-Authorization` header the body of the 407 response is the status text
followed by a line feed, which is not the status text. -/
theorem Handler_unauthorized_body_not_status_text :
    userPassConfig.validated.auth.enabled = true ∧
    basicAuth userPassConfig.validated (plainRequest.Header.Get ProxyAuthorizationKey) = false ∧
    (Handler userPassConfig.validated unreachable (.fresh (some .ok)) plainRequest).map
      (fun e => e.w.body) = some (ascii "Proxy Authentication Required" ++ [lf]) ∧
    ascii "Proxy Authentication Required" ++ [lf] ≠ StatusText 407 :=
  ⟨by decide, by decide, by decide, by decide⟩

/-- C2 (amended): while authentication is enabled, a request (of any method)
whose `Proxy-Authorization` value `basicAuth` rejects gets status 407 with the
header `Proxy-Authenticate: Basic` and the 407 status text followed by a line
feed as body; no handler runs, nothing is dialed, sent upstream or copied, and
the only line logged is the authentication failure on the error logger. -/
theorem Handler_unauthorized (config : configuration) (env : Env)
    (hijacker : Option HijackResult) (r : Request)
    (ha : config.auth.enabled = true)
    (hb : basicAuth config (r.Header.Get ProxyAuthorizationKey) = false) :
    ∃ e, Handler config env (.fresh hijacker) r = some e ∧
      e.w.wroteHeader = true ∧ e.w.status = 407 ∧
      e.w.sent.values ProxyAuthenticateKey = [BasicAuthName] ∧
      e.w.body = StatusText 407 ++ [lf] ∧
      e.invoked = [] ∧ e.dialed = [] ∧ e.upstream = [] ∧ e.transfers = [] ∧
      e.log = [(.error, ascii "authentication failed " ++ r.RemoteAddr)] := by
  unfold Handler
  rw [if_pos ⟨ha, by simp [hb]⟩]
  exact ⟨_, rfl, rfl, rfl, by rfl, by rfl, rfl, rfl, rfl, rfl, rfl⟩

set_option maxRecDepth 100000 in
/-- C2 (amended) at the configuration with user `u` and password `p` and a
`GET` request without a `Proxy-Authorization` header; a `CONNECT` request
without the header gets 407 as well. -/
theorem Handler_unauthorized_witness :
    userPassConfig.validated.auth.enabled = true ∧
    basicAuth userPassConfig.validated (plainRequest.Header.Get ProxyAuthorizationKey) = false ∧
    (∃ e, Handler userPassConfig.validated unreachable (.fresh (some .ok)) plainRequest = some e ∧
      e.w.wroteHeader = true ∧ e.w.status = 407 ∧
      e.w.sent.values ProxyAuthenticateKey = [BasicAuthName] ∧
      e.w.body = StatusText 407 ++ [lf] ∧
      e.invoked = [] ∧ e.dialed = [] ∧ e.upstream = [] ∧ e.transfers = [] ∧
      e.log = [(.error, ascii "authentication failed " ++ plainRequest.RemoteAddr)]) ∧
    (Handler userPassConfig.validated unreachable (.fresh (some .ok)) connectRequest).map
      (fun e => (e.w.status, e.invoked)) = some (407, []) :=
  ⟨by decide, by decide,
    Handler_unauthorized userPassConfig.validated unreachable (some .ok) plainRequest
      (by decide) (by decide), by decide⟩

set_option maxRecDepth 100000 in
/-- C3 as stated fails: `init` accepts the user name `a:b` with password `p`,
and `basicAuth` then rejects the header built from these credentials, because
it splits the decoded `a:b:p` at the first colon. -/
theorem basicAuth_rejects_colon_username :
    init emptyFS colonUserConfig = .ok colonUserConfig.validated ∧
    colonUserConfig.auth.enabled = true ∧
    basicAuth colonUserConfig.validated (ownCredentials colonUserConfig) = false :=
  ⟨by decide, by decide, by decide⟩

/-- C3 (amended): when `init` succeeds on a configuration with authentication
enabled whose user name contains no colon, `basicAuth` accepts
`"Basic " + base64(username + ":" + password)`, and the dispatcher hands a
request carrying that header value to the tunnel or the forward handler after
logging the new connection. -/
theorem basicAuth_accepts_own_credentials (fs : FileSystem) (c c' : configuration)
    (h : init fs c = .ok c') (ha : c.auth.enabled = true) (hc : colon ∉ c.auth.username) :
    basicAuth c' (ownCredentials c) = true ∧
    ∀ (env : Env) (w : ResponseWriter) (r : Request),
      r.Header.Get ProxyAuthorizationKey = ownCredentials c →
      Handler c' env w r =
        (if r.Method = ascii "CONNECT" then handleTunneling c' env w r
         else handleHTTP env w r).map fun e =>
          { e with log := (.conn, ascii "new connection from " ++ r.RemoteAddr) :: e.log } := by
  obtain ⟨_, rfl⟩ := (init_ok_iff fs c c').1 h
  have hb : basicAuth (validated c) (ownCredentials c) = true := by
    rw [basicAuth_true_iff]
    refine ⟨c.auth.username, c.auth.password, parseBasicAuth_own c hc, ?_, ?_⟩
    · simp [validated, ha]
    · simp [validated, ha]
  refine ⟨hb, ?_⟩
  intro env w r hr
  unfold Handler
  rw [hr, if_neg (by simp [hb])]

set_option maxRecDepth 100000 in
/-- C3 (amended) at the specification's own example: user `u`, password `p`,
header `Basic dTpw`. -/
theorem basicAuth_accepts_own_credentials_witness :
    init emptyFS userPassConfig = .ok userPassConfig.validated ∧
    userPassConfig.auth.enabled = true ∧ colon ∉ userPassConfig.auth.username ∧
    ownCredentials userPassConfig = ascii "Basic dTpw" ∧
    basicAuth userPassConfig.validated (ownCredentials userPassConfig) = true :=
  ⟨by decide, by decide, by decide, by decide,
    (basicAuth_accepts_own_credentials emptyFS userPassConfig userPassConfig.validated
      (by decide) (by decide) (by decide)).1⟩

set_option maxRecDepth 100000 in
/-- C4 at a failing input: for a request with `Proxy-Authorization` and
`Connection` headers, the request `handleHTTP` hands to `RoundTrip` is the
client's request with both headers still in it; they are deleted only from the
request the handler keeps after the round trip. -/
theorem handleHTTP_forwards_hop_headers :
    (handleHTTP (reachable helloResponse) (.fresh (some .ok)) authRequest).map
      (fun e => (e.upstream, e.req.Header)) = some ([authRequest], []) ∧
    authRequest.Header.Get (ascii "Proxy-Authorization") = ascii "Basic dTpw" ∧
    authRequest.Header.Get (ascii "Connection") = ascii "keep-alive" :=
  ⟨by decide, by decide, by decide⟩

set_option maxRecDepth 100000 in
/-- C5 as stated fails: the minimal configuration with a read timeout of
9223372037 seconds (a value a 64-bit Go `int` holds) meets every listed
condition, and `init` returns the error of the duration conversion. -/
theorem init_fails_on_large_timeout :
    validAsStated emptyFS largeTimeoutConfig ∧
    largeTimeoutConfig.timeout.read ≤ 9223372036854775807 ∧
    init emptyFS largeTimeoutConfig =
      .error (.error (ascii "timeout-read: time: invalid duration " ++ [34] ++
        ascii "9223372037s" ++ [34])) :=
  ⟨by decide, by decide, by decide⟩

/-- C5 (amended): `init` succeeds exactly when HTTP or HTTPS is enabled; an
enabled HTTP has its port in 1..65535; an enabled HTTPS has its port in
1..65535 and non-empty certificate and key paths that name existing files;
enabled authentication has a non-empty user name and password; and each of the
three timeouts is between 0 and 9223372036 seconds. It succeeds on the minimal
configuration (HTTP on port 8080, timeouts 0, 0, 10) whatever the file system. -/
theorem init_succeeds_iff (fs : FileSystem) (c : configuration) :
    ((∃ c', init fs c = .ok c') ↔
      (c.http.enabled = true ∨ c.https.enabled = true) ∧
      (c.http.enabled = true → 1 ≤ c.http.port ∧ c.http.port ≤ 65535) ∧
      (c.https.enabled = true → 1 ≤ c.https.port ∧ c.https.port ≤ 65535 ∧
        c.https.cert ≠ [] ∧ fs c.https.cert = .file ∧
        c.https.key ≠ [] ∧ fs c.https.key = .file) ∧
      (c.auth.enabled = true → c.auth.username ≠ [] ∧ c.auth.password ≠ []) ∧
      (0 ≤ c.timeout.read ∧ c.timeout.read ≤ 9223372036) ∧
      (0 ≤ c.timeout.write ∧ c.timeout.write ≤ 9223372036) ∧
      (0 ≤ c.timeout.dial ∧ c.timeout.dial ≤ 9223372036)) ∧
    init fs minimalConfig = .ok (validated minimalConfig) := by
  constructor
  · constructor
    · rintro ⟨c', h⟩
      obtain ⟨⟨⟨v1, v2, v3, v4, v5, v6, v7⟩, v8, v9, v10⟩, _⟩ := (init_ok_iff fs c c').1 h
      exact ⟨v1, v2, v3, v4, ⟨v5, v8⟩, ⟨v6, v9⟩, ⟨v7, v10⟩⟩
    · rintro ⟨v1, v2, v3, v4, ⟨v5, v8⟩, ⟨v6, v9⟩, ⟨v7, v10⟩⟩
      exact ⟨_, (init_ok_iff fs c _).2 ⟨⟨⟨v1, v2, v3, v4, v5, v6, v7⟩, v8, v9, v10⟩, rfl⟩⟩
  · exact (init_ok_iff fs minimalConfig _).2 ⟨valid_minimalConfig fs, rfl⟩

set_option maxRecDepth 100000 in
/-- C6 as stated fails: with a read timeout of 9223372037 seconds `init` fails
although none of the documented conditions holds; and when the write timeout is
negative as well, the error is still the read timeout's, not the one of the
first documented condition that holds. -/
theorem init_error_outside_documented :
    init emptyFS largeTimeoutConfig =
      .error (.error (message largeTimeoutConfig readTooLarge)) ∧
    firstFailure emptyFS largeTimeoutConfig documented = none ∧
    init emptyFS largeReadNegativeWriteConfig =
      .error (.error (message largeReadNegativeWriteConfig readTooLarge)) ∧
    firstFailure emptyFS largeReadNegativeWriteConfig documented = some writeNegative ∧
    message largeReadNegativeWriteConfig readTooLarge ≠
      message largeReadNegativeWriteConfig writeNegative :=
  ⟨by decide, by decide, by decide, by decide, by decide⟩

/-- C6 (amended): with the conditions in the order of `Condition.order` (the
documented ones, each negative-timeout test followed by the test that the
timeout is not too large for a duration), an error returned by `init` is the
message of the first condition that holds; whenever some condition holds `init`
returns that message unless a `Stat` error panics first; and the messages of
two different conditions differ, whatever the configurations. -/
theorem init_error_first_failure (fs : FileSystem) (c : configuration) :
    (∀ msg, init fs c = .error (.error msg) →
      ∃ k, firstFailure fs c order = some k ∧ msg = message c k) ∧
    (∀ k, firstFailure fs c order = some k →
      init fs c = .error (.error (message c k)) ∨ init fs c = .error .crash) ∧
    (∀ (k1 k2 : Condition) (c1 c2 : configuration), k1 ≠ k2 → message c1 k1 ≠ message c2 k2) := by
  refine ⟨?_, ?_, fun k1 k2 c1 c2 h => message_ne c1 c2 k1 k2 h⟩
  · intro msg h
    rcases init_cases fs c with ⟨k, hk, e⟩ | ⟨e, _⟩ | ⟨_, _, e⟩
    · rw [e] at h
      injection h with h
      injection h with h
      exact ⟨k, hk, h.symm⟩
    · rw [e] at h
      injection h with h
      cases h
    · rw [e] at h
      cases h
  · intro k hk
    rcases init_cases fs c with ⟨k', hk', e⟩ | ⟨e, _⟩ | ⟨hn, _, _⟩
    · rw [hk] at hk'
      injection hk' with hk'
      subst hk'
      exact Or.inl e
    · exact Or.inr e
    · rw [hn] at hk
      cases hk

/-- C7: when `init` returns success, in the resulting configuration HTTP or
HTTPS is enabled; with HTTPS enabled the certificate and key paths name
existing files; with authentication enabled the user name and password are
non-empty and the two stored digests are their SHA-256; the three timeouts are
at least 0 and the three durations are exactly that many seconds in
nanoseconds. -/
theorem init_ok_invariants (fs : FileSystem) (c c' : configuration)
    (h : init fs c = .ok c') :
    (c'.http.enabled = true ∨ c'.https.enabled = true) ∧
    (c'.https.enabled = true → fs c'.https.cert = .file ∧ fs c'.https.key = .file) ∧
    (c'.auth.enabled = true →
      c'.auth.username ≠ [] ∧ c'.auth.password ≠ [] ∧
      c'.auth.userHash = sha256.Sum256 c'.auth.username ∧
      c'.auth.passHash = sha256.Sum256 c'.auth.password) ∧
    0 ≤ c'.timeout.read ∧ 0 ≤ c'.timeout.write ∧ 0 ≤ c'.timeout.dial ∧
    c'.timeout.readDuration = c'.timeout.read * 1000000000 ∧
    c'.timeout.writeDuration = c'.timeout.write * 1000000000 ∧
    c'.timeout.dialDuration = c'.timeout.dial * 1000000000 := by
  obtain ⟨⟨⟨v1, v2, v3, v4, v5, v6, v7⟩, _⟩, rfl⟩ := (init_ok_iff fs c c').1 h
  refine ⟨v1, ?_, ?_, v5, v6, v7, rfl, rfl, rfl⟩
  · intro he
    have := v3 he
    exact ⟨this.2.2.2.1, this.2.2.2.2.2⟩
  · intro he
    have he' : c.auth.enabled = true := he
    have := v4 he'
    refine ⟨this.1, this.2, ?_, ?_⟩
    · simp [validated, he']
    · simp [validated, he']

set_option maxRecDepth 100000 in
/-- C7 at the configuration with user `u` and password `p`: `init` succeeds,
the stored user digest is the SHA-256 of `u` and the dial duration is ten
seconds. -/
theorem init_ok_invariants_witness :
    init emptyFS userPassConfig = .ok userPassConfig.validated ∧
    userPassConfig.validated.auth.userHash = sha256.Sum256 (ascii "u") ∧
    userPassConfig.validated.timeout.dialDuration = 10000000000 :=
  ⟨by decide,
    ((init_ok_invariants emptyFS userPassConfig userPassConfig.validated (by decide)).2.2.1
      (by decide)).2.2.1,
    (init_ok_invariants emptyFS userPassConfig userPassConfig.validated
      (by decide)).2.2.2.2.2.2.2.2⟩

/-- C8 at the failing inputs: whenever the dial succeeds and the response
writer is not a hijacker, `handleTunneling` leaves the status 200 it wrote
first (the later 500 is ignored), writes the message as body, and starts no copy
task. -/
theorem handleTunneling_without_hijacker (config : configuration) (resp : Response)
    (r : Request) :
    (handleTunneling config (reachable resp) (.fresh none) r).map
      (fun e => (e.w.wroteHeader, e.w.status, e.w.body, e.transfers)) =
      some (true, 200, ascii "Hijacking not supported" ++ [lf], []) := by
  rfl

set_option maxRecDepth 100000 in
/-- C9 as stated fails: on a round-trip failure the body is the error text
followed by a line feed, not the error text; and an upstream status code below
100 makes `WriteHeader` panic, so no status is written at all. -/
theorem handleHTTP_error_body_has_newline :
    (handleHTTP unreachable (.fresh (some .ok)) plainRequest).map
      (fun e => (e.w.status, e.w.body)) = some (503, ascii "dial tcp: i/o timeout" ++ [lf]) ∧
    ascii "dial tcp: i/o timeout" ++ [lf] ≠ ascii "dial tcp: i/o timeout" ∧
    handleHTTP (reachable { helloResponse with StatusCode := 42 }) (.fresh (some .ok))
      plainRequest = none :=
  ⟨by decide, by decide, by decide⟩

/-- C9 (amended): from an empty client header set, when the round trip succeeds
with a final status code (101 or 200..999) and a header map as the transport
fills it (distinct canonical names, each with at least one value),
`handleHTTP` writes the upstream status code, and for every header name the
client's list of values is the upstream's list, in the same order, no name being
added or dropped; when the round trip fails the status is 503 and the body is
the error text followed by a line feed. -/
theorem handleHTTP_relays (env : Env) (hijacker : Option HijackResult) (req : Request)
    (hresp : ∀ resp, env.RoundTrip req = .ok resp →
      resp.Header.wellFormed ∧ finalStatus resp.StatusCode) :
    match env.RoundTrip req with
    | .ok resp =>
      ∃ e, handleHTTP env (.fresh hijacker) req = some e ∧ e.w.wroteHeader = true ∧
        e.w.status = resp.StatusCode ∧
        (∀ k, e.w.sent.values k = resp.Header.values k) ∧
        (∀ k, e.w.sent.has k = resp.Header.has k)
    | .error err =>
      ∃ e, handleHTTP env (.fresh hijacker) req = some e ∧ e.w.wroteHeader = true ∧
        e.w.status = 503 ∧ e.w.body = err ++ [lf] := by
  cases hr : env.RoundTrip req with
  | ok resp =>
    obtain ⟨⟨hn, hc⟩, hf⟩ := hresp resp hr
    have hcopy := copyHeaders_append (.fresh hijacker) resp.Header
      (by simpa [ResponseWriter.fresh] using hn) hc
    simp only [handleHTTP, hr, hcopy]
    rw [WriteHeader_final _ _ rfl hf]
    simp only [Option.bind, copyBody, ResponseWriter.Write, ResponseWriter.fresh, List.nil_append]
    by_cases hb : resp.Body = []
    · simp [hb, reply]
    · simp [hb, reply]
  | error err =>
    simp only [handleHTTP, hr]
    exact ⟨_, rfl, rfl, rfl, rfl⟩

set_option maxRecDepth 100000 in
/-- C9 (amended) at the upstream response `200` with one header and body
`hello`. -/
theorem handleHTTP_relays_witness :
    helloResponse.Header.wellFormed ∧ finalStatus helloResponse.StatusCode ∧
    ∃ e, handleHTTP (reachable helloResponse) (.fresh (some .ok)) plainRequest = some e ∧
      e.w.wroteHeader = true ∧ e.w.status = 200 ∧
      (∀ k, e.w.sent.values k = helloResponse.Header.values k) ∧
      (∀ k, e.w.sent.has k = helloResponse.Header.has k) :=
  have hw : helloResponse.Header.wellFormed := ⟨by decide, by decide⟩
  have hf : finalStatus helloResponse.StatusCode := Or.inr ⟨by decide, by decide⟩
  ⟨hw, hf, handleHTTP_relays (reachable helloResponse) (some .ok) plainRequest
    (fun resp h => by
      have e : helloResponse = resp := by
        simpa [reachable] using h
      subst e
      exact ⟨hw, hf⟩)⟩

/-- C10 as stated fails: the errors channel `start` allocates does not have a
capacity of at least 2. -/
theorem start_errors_capacity_not_two :
    ¬ 2 ≤ (start minimalConfig.validated).1.errors.cap := by
  decide

/-- C10 (amended): `start` allocates the errors channel unbuffered (capacity 0)
and the idle channel unbuffered. -/
theorem start_channels_unbuffered (config : configuration) :
    (start config).1.errors = makeChan ∧ (start config).1.idle = makeChan ∧
    (start config).1.errors.cap = 0 ∧ (start config).1.idle.cap = 0 :=
  ⟨rfl, rfl, rfl, rfl⟩

end HttpsProxy
